import Mathlib

/-!
# mint: the TLS 1.3 handshake drivers of `conn.go`

A shallow embedding of `Conn.ClientHandshake` and `Conn.ServerHandshake`.

* The collaborators that live outside `conn.go` (key-share primitives, the
  key schedule, the record layer's `Rekey`, the message codecs) are the fields
  of `Env`; the drivers are functions of an `Env`, a `Conn` and the list of
  handshake messages still to arrive on the inbound channel.
* A run yields a `Run`: how the call ended (`return err`, or a Go `panic`),
  the connection afterwards, the unread input, and the trace of effects in
  program order (collaborator calls and the assignment to `c.context`).
* Go's `error` is `Option GoError`, `none` being `nil`.
-/

set_option autoImplicit false
set_option linter.unusedTactic false

namespace Mint

/-! ## Data model -/

/-- Byte strings (`[]byte`); a `nil` slice and an empty one are both `[]`. -/
abbrev Bytes := List Nat

/-- Go `error` values: one built by `fmt.Errorf` in the drivers, or one handed back
by a collaborator. -/
inductive GoError where
  | errorf (msg : String)
  | external (msg : String)
  deriving DecidableEq, Repr

/-- How a driver call ends: it returns its `error` result, or it panics. -/
inductive Outcome where
  | returned (err : Option GoError)
  | panicked (value : GoError)
  deriving DecidableEq, Repr

abbrev cipherSuite := Nat
abbrev namedGroup := Nat
abbrev handshakeType := Nat

/-- Modelled from the spec: the two cipher-suite identifiers of the profile, declared
outside `conn.go`. The numbers are the registry code points; only their being
different is used. -/
def TLS_ECDHE_ECDSA_WITH_AES_128_GCM_SHA256 : cipherSuite := 0xC02B

/-- Modelled from the spec: the RSA-signing suite identifier (see the ECDSA one). -/
def TLS_ECDHE_RSA_WITH_AES_128_GCM_SHA256 : cipherSuite := 0xC02F

/-- Modelled from the spec: group identifier of P-256, declared outside `conn.go`. -/
def namedGroupP256 : namedGroup := 23

/-- Modelled from the spec: group identifier of P-384, declared outside `conn.go`. -/
def namedGroupP384 : namedGroup := 24

/-- Modelled from the spec: group identifier of P-521, declared outside `conn.go`. -/
def namedGroupP521 : namedGroup := 25

/-- Modelled from the spec: type tag of a ClientHello, declared outside `conn.go`. -/
def handshakeTypeClientHello : handshakeType := 1

/-- Modelled from the spec: type tag of a ServerHello, declared outside `conn.go`. -/
def handshakeTypeServerHello : handshakeType := 2

/-- Modelled from the spec: type tag of a Finished, declared outside `conn.go`. -/
def handshakeTypeFinished : handshakeType := 20

/-- Modelled from the spec: hash and signature algorithm identifiers used in the
client's signature_algorithms extension, declared outside `conn.go`. -/
def hashAlgorithmSHA256 : Nat := 4
def hashAlgorithmSHA384 : Nat := 5
def signatureAlgorithmRSA : Nat := 1
def signatureAlgorithmECDSA : Nat := 3

/-- The constant `verifyDataLen` of `conn.go`. -/
def verifyDataLen : Nat := 20

structure keyShare where
  group : namedGroup
  keyExchange : Bytes
  deriving DecidableEq, Repr

structure signatureAndHashAlgorithm where
  hash : Nat
  signature : Nat
  deriving DecidableEq, Repr

/-- Modelled from the spec: the extension bodies on the wire (section 6): server_name,
key_share (with the role it was written for), supported_groups,
signature_algorithms; `unknown` is any other extension, or a payload that does not
parse for its tag. -/
inductive extensionBody where
  | serverName (name : String)
  | keyShare (roleIsServer : Bool) (shares : List keyShare)
  | supportedGroups (groups : List namedGroup)
  | signatureAlgorithms (algorithms : List signatureAndHashAlgorithm)
  | unknown (extensionType : Nat) (data : Bytes)
  deriving DecidableEq, Repr

/-- Modelled from the spec: the type tag of an extension body (its `Type()`). -/
def extensionBody.extType : extensionBody → Nat
  | .serverName _ => 0
  | .keyShare _ _ => 40
  | .supportedGroups _ => 10
  | .signatureAlgorithms _ => 13
  | .unknown t _ => t

/-- Modelled from the spec: whether a stored extension parses as the kind (and, for
key_share, the role) of the destination handed to `Find`. -/
def extensionBody.parsesAs : extensionBody → extensionBody → Bool
  | .serverName _, .serverName _ => true
  | .keyShare r _, .keyShare r2 _ => r == r2
  | .supportedGroups _, .supportedGroups _ => true
  | .signatureAlgorithms _, .signatureAlgorithms _ => true
  | _, _ => false

/-- Modelled from the spec: the Extension Container, an ordered collection keyed by
extension type. -/
abbrev extensionList := List extensionBody

/-- Modelled from the spec: `add(extension)` appends, or overwrites the entry with
the same type tag; it always succeeds. -/
def extensionList.Add (el : extensionList) (src : extensionBody) : extensionList :=
  if el.any (fun ext => ext.extType == src.extType) then
    el.map (fun ext => if ext.extType == src.extType then src else ext)
  else el ++ [src]

/-- Modelled from the spec: `find(type)`: the stored entry for the destination's tag,
decoded; absent when there is no such entry or when it does not parse. -/
def extensionList.Find (el : extensionList) (dst : extensionBody) : Option extensionBody :=
  match el.find? (fun ext => ext.extType == dst.extType) with
  | none => none
  | some ext => if ext.parsesAs dst then some ext else none

/-- The shares a `Find` into `keyShareExtension{roleIsServer: role}` leaves in the
destination, `none` when `Find` returns false. -/
def extensionList.FindKeyShare (el : extensionList) (roleIsServer : Bool) :
    Option (List keyShare) :=
  match el.Find (.keyShare roleIsServer []) with
  | some (.keyShare _ shares) => some shares
  | _ => none

structure clientHelloBody where
  cipherSuites : List cipherSuite
  extensions : extensionList
  deriving DecidableEq, Repr

structure serverHelloBody where
  cipherSuite : cipherSuite
  extensions : extensionList
  deriving DecidableEq, Repr

structure finishedBody where
  verifyDataLen : Nat
  verifyData : Bytes
  deriving DecidableEq, Repr

/-- Message bodies (`handshakeMessageBody`): the three the drivers build, and any
other body `toBody` may produce (Certificate and the like). -/
inductive handshakeMessageBody where
  | clientHello (ch : clientHelloBody)
  | serverHello (sh : serverHelloBody)
  | finished (fin : finishedBody)
  | other (msgType : handshakeType) (data : Bytes)
  deriving DecidableEq, Repr

/-- Modelled from the spec: a framed message as `ReadMessage` returns it, a type tag
and a body. A hello whose body parses is kept parsed; `raw` is every other
message: its tag and its body bytes. -/
inductive handshakeMessage where
  | clientHello (ch : clientHelloBody)
  | serverHello (sh : serverHelloBody)
  | raw (msgType : handshakeType) (body : Bytes)
  deriving DecidableEq, Repr

def handshakeMessage.msgType : handshakeMessage → handshakeType
  | .clientHello _ => handshakeTypeClientHello
  | .serverHello _ => handshakeTypeServerHello
  | .raw t _ => t

/-- The body bytes of a message. The drivers read them only off a message whose tag
is Finished, which is a `raw` one. -/
def handshakeMessage.body : handshakeMessage → Bytes
  | .raw _ body => body
  | _ => []

structure keySet where
  clientWriteKey : Bytes
  serverWriteKey : Bytes
  clientWriteIV : Bytes
  serverWriteIV : Bytes
  deriving DecidableEq, Repr

/-- Modelled from the spec: the Crypto Context record, declared outside `conn.go`:
the fields the drivers read, and `secret` for the rest of its state. -/
structure cryptoContext where
  suite : cipherSuite
  handshakeKeys : keySet
  applicationKeys : keySet
  clientFinished : finishedBody
  serverFinished : finishedBody
  secret : Bytes
  deriving DecidableEq, Repr

/-- The zero value `cryptoContext{}`. -/
def cryptoContext.zero : cryptoContext :=
  ⟨0, ⟨[], [], [], []⟩, ⟨[], [], [], []⟩, ⟨0, []⟩, ⟨0, []⟩, []⟩

/-- The part of `Conn` the drivers assign: `in` and `out` are record layers, reached
through `Env`. -/
structure Conn where
  context : cryptoContext
  deriving DecidableEq, Repr

/-- The two record-layer channels of a `Conn`. -/
inductive Channel where
  | inbound
  | outbound
  deriving DecidableEq, Repr

/-- The collaborators of the drivers, none of which is in `conn.go`. -/
structure Env where
  /-- Generates `(pub, priv, err)` for a group. A driver calls it at most once for a
  group, so a function of the group stands for any source of entropy. -/
  newKeyShare : namedGroup → Except GoError (Bytes × Bytes)
  /-- Computes `(ES, err)` from a group, the peer's public share and a private key. -/
  keyAgreement : namedGroup → Bytes → Bytes → Bytes × Option GoError
  /-- The context after `ctx.Init(ch, sh, ES, ES, suite)`. -/
  Init : cryptoContext → clientHelloBody → serverHelloBody → Bytes → Bytes → cipherSuite →
    cryptoContext
  /-- The context after `ctx.Update(transcript)`. -/
  Update : cryptoContext → List handshakeMessageBody → cryptoContext
  /-- The error of the record layer's `Rekey(suite, key, iv)` on a channel. -/
  Rekey : Channel → cipherSuite → Bytes → Bytes → Option GoError
  /-- The error of the handshake layer's `WriteMessageBody` on the outbound channel. -/
  WriteMessageBody : handshakeMessageBody → Option GoError
  /-- The decoding of `hm.toBody()` for a message that is not a parsed hello. -/
  toBody : handshakeType → Bytes → Except GoError handshakeMessageBody
  /-- The verify-data `finishedBody.Unmarshal` decodes from body bytes, given the
  configured `verifyDataLen`. -/
  finishedUnmarshal : Nat → Bytes → Except GoError Bytes

/-- Effects of a run, in program order: the calls made to collaborators (and to
`bytes.Equal`), and the assignment to `c.context`. -/
inductive Event where
  | newKeyShare (group : namedGroup)
  | write (body : handshakeMessageBody)
  | read (hm : handshakeMessage)
  | keyAgreement (group : namedGroup) (pub : Bytes) (priv : Bytes)
  | init (ch : clientHelloBody) (sh : serverHelloBody) (es : Bytes) (ss : Bytes)
      (suite : cipherSuite)
  | rekey (channel : Channel) (suite : cipherSuite) (key : Bytes) (iv : Bytes)
  | update (transcript : List handshakeMessageBody)
  | bytesEqual (a : Bytes) (b : Bytes)
  | setContext (ctx : cryptoContext)
  deriving DecidableEq, Repr

/-- The result of running a driver. -/
structure Run where
  outcome : Outcome
  conn : Conn
  trace : List Event
  unread : List handshakeMessage
  deriving DecidableEq, Repr

/-- The run `r`, preceded by the effects `evs`. -/
def Run.pre (evs : List Event) (r : Run) : Run :=
  { r with trace := evs ++ r.trace }

/-- A run that returns `err` at once. -/
def Run.fail (err : GoError) (c : Conn) (rest : List handshakeMessage) : Run :=
  ⟨.returned (some err), c, [], rest⟩

/-- Modelled from the spec: the error of a read on an exhausted inbound stream. -/
def errEOF : GoError := .external "EOF"

/-- Modelled from the spec: the error of `ReadMessageBody` when the message read does
not decode into the destination (wrong type tag, or a body that does not parse). -/
def errDecode : GoError := .external "tls.handshakelayer: message does not decode"

/-- Modelled from the spec: `hm.toBody()`. -/
def handshakeMessage.toBody (P : Env) : handshakeMessage → Except GoError handshakeMessageBody
  | .clientHello ch => .ok (.clientHello ch)
  | .serverHello sh => .ok (.serverHello sh)
  | .raw t body => P.toBody t body

/-- Modelled from the spec: the framed message `WriteMessageBody(body)` puts on the
wire; a Finished is its verify-data. -/
def frame : handshakeMessageBody → handshakeMessage
  | .clientHello ch => .clientHello ch
  | .serverHello sh => .serverHello sh
  | .finished fin => .raw handshakeTypeFinished fin.verifyData
  | .other t data => .raw t data

/-- Modelled from the spec: `hIn.ReadMessageBody(sh)` for a `serverHelloBody`:
effects, result, unread input. -/
def ReadMessageBody_serverHello :
    List handshakeMessage → List Event × Except GoError serverHelloBody × List handshakeMessage
  | [] => ([], .error errEOF, [])
  | .serverHello sh :: rest => ([.read (.serverHello sh)], .ok sh, rest)
  | hm :: rest => ([.read hm], .error errDecode, rest)

/-- Modelled from the spec: `hIn.ReadMessageBody(ch)` for a `clientHelloBody`. -/
def ReadMessageBody_clientHello :
    List handshakeMessage → List Event × Except GoError clientHelloBody × List handshakeMessage
  | [] => ([], .error errEOF, [])
  | .clientHello ch :: rest => ([.read (.clientHello ch)], .ok ch, rest)
  | hm :: rest => ([.read hm], .error errDecode, rest)

/-- Modelled from the spec: `hIn.ReadMessageBody(cfin)` for a `finishedBody` whose
`verifyDataLen` is `n`: the verify-data decoded. -/
def ReadMessageBody_finished (P : Env) (n : Nat) :
    List handshakeMessage → List Event × Except GoError Bytes × List handshakeMessage
  | [] => ([], .error errEOF, [])
  | hm :: rest =>
    if hm.msgType = handshakeTypeFinished then
      ([.read hm], P.finishedUnmarshal n hm.body, rest)
    else ([.read hm], .error errDecode, rest)

/-- Lookup in a `map[K]bool`: a missing key reads `false`. -/
def mapGet (m : List (Nat × Bool)) (k : Nat) : Bool :=
  (m.lookup k).getD false

/-! ## `ClientHandshake` -/

/-- The client's loop over `config_keyShareGroups` (lines 37-46): one
`newKeyShare` per group, filling `ks.shares` and `privateKeys`; the first failure
is returned. The table is an association list whose newest entry comes first. -/
def clientKeyShareLoop (P : Env) :
    List namedGroup → List keyShare → List (namedGroup × Bytes) →
    List Event × Except GoError (List keyShare × List (namedGroup × Bytes))
  | [], shares, privateKeys => ([], .ok (shares, privateKeys))
  | group :: groups, shares, privateKeys =>
    match P.newKeyShare group with
    | .error err => ([.newKeyShare group], .error err)
    | .ok (pub, priv) =>
      let r := clientKeyShareLoop P groups (shares ++ [⟨group, pub⟩])
        ((group, priv) :: privateKeys)
      (.newKeyShare group :: r.1, r.2)

/-- Lines 119-153 of `ClientHandshake`: `Update` with the transcript, verification
of the server's Finished, the client's Finished, the rekey to application keys and
the assignment of `c.context`. -/
def clientFinish (P : Env) (c : Conn) (ctx0 : cryptoContext)
    (transcript : List handshakeMessageBody) (finishedMessage : handshakeMessage)
    (rest : List handshakeMessage) : Run :=
  -- Update the crypto context with all but the Finished
  let ctx := P.Update ctx0 transcript
  Run.pre [.update transcript] <|
  -- Verify server finished
  match P.finishedUnmarshal ctx.serverFinished.verifyDataLen finishedMessage.body with
  | .error err => Run.fail err c rest
  | .ok verifyData =>
  Run.pre [.bytesEqual verifyData ctx.serverFinished.verifyData] <|
  if verifyData ≠ ctx.serverFinished.verifyData then
    Run.fail (.errorf "tls.client: Server's Finished failed to verify") c rest
  else
  -- Send client Finished
  Run.pre [.write (.finished ctx.clientFinished)] <|
  match P.WriteMessageBody (.finished ctx.clientFinished) with
  | some err => Run.fail err c rest
  | none =>
  -- Rekey to application keys
  Run.pre [.rekey .inbound ctx.suite ctx.applicationKeys.serverWriteKey
    ctx.applicationKeys.serverWriteIV] <|
  match P.Rekey .inbound ctx.suite ctx.applicationKeys.serverWriteKey
    ctx.applicationKeys.serverWriteIV with
  | some err => Run.fail err c rest
  | none =>
  Run.pre [.rekey .outbound ctx.suite ctx.applicationKeys.serverWriteKey
    ctx.applicationKeys.serverWriteIV] <|
  match P.Rekey .outbound ctx.suite ctx.applicationKeys.serverWriteKey
    ctx.applicationKeys.serverWriteIV with
  | some err => Run.fail err c rest
  | none =>
  ⟨.returned none, { c with context := ctx }, [.setContext ctx], rest⟩

/-- The loop "Read to Finished" (lines 99-117), followed by the rest of the
function: messages are read and their bodies appended to the transcript until one of
type Finished arrives. -/
def clientReadToFinished (P : Env) (c : Conn) (ctx : cryptoContext) :
    List handshakeMessageBody → List handshakeMessage → Run
  | _, [] => Run.fail errEOF c []
  | transcript, hm :: rest =>
    Run.pre [.read hm] <|
    if hm.msgType = handshakeTypeFinished then
      clientFinish P c ctx transcript hm rest
    else
      match hm.toBody P with
      | .error err => Run.fail err c rest
      | .ok body => clientReadToFinished P c ctx (transcript ++ [body]) rest

def config_serverName : String := "example.com"

def config_cipherSuites : List cipherSuite :=
  [TLS_ECDHE_ECDSA_WITH_AES_128_GCM_SHA256, TLS_ECDHE_RSA_WITH_AES_128_GCM_SHA256]

def config_keyShareGroups : List namedGroup :=
  [namedGroupP256, namedGroupP384, namedGroupP521]

def config_signatureAlgorithms : List signatureAndHashAlgorithm :=
  [⟨hashAlgorithmSHA256, signatureAlgorithmRSA⟩, ⟨hashAlgorithmSHA384, signatureAlgorithmECDSA⟩]

/-- The ClientHello built from the key shares generated (lines 47-58). -/
def buildClientHello (shares : List keyShare) : clientHelloBody :=
  let ks := extensionBody.keyShare false shares
  let sni := extensionBody.serverName config_serverName
  let sg := extensionBody.supportedGroups config_keyShareGroups
  let sa := extensionBody.signatureAlgorithms config_signatureAlgorithms
  { cipherSuites := config_cipherSuites
    extensions := (((extensionList.Add [] sni).Add ks).Add sg).Add sa }

/-- The method `Conn.ClientHandshake`, on the messages `input` still to arrive. -/
def ClientHandshake (P : Env) (c : Conn) (input : List handshakeMessage) : Run :=
  -- Construct some extensions
  match clientKeyShareLoop P config_keyShareGroups [] [] with
  | (evs, .error err) => Run.pre evs (Run.fail err c input)
  | (evs, .ok (shares, privateKeys)) =>
  Run.pre evs <|
  -- Construct and write ClientHello
  let ch := buildClientHello shares
  Run.pre [.write (.clientHello ch)] <|
  match P.WriteMessageBody (.clientHello ch) with
  | some err => Run.fail err c input
  | none =>
  -- Read ServerHello
  match ReadMessageBody_serverHello input with
  | (evs, .error err, rest) => Run.pre evs (Run.fail err c rest)
  | (evs, .ok sh, rest) =>
  Run.pre evs <|
  -- Read the key_share extension and do key agreement
  match sh.extensions.FindKeyShare true with
  | none =>
    -- `return err`, where `err` is the nil left by the successful read
    ⟨.returned none, c, [], rest⟩
  | some [] =>
    -- `serverKeyShares.shares[0]` on an empty slice
    ⟨.panicked (.external "runtime error: index out of range"), c, [], rest⟩
  | some (sks :: _) =>
  -- `priv, ok := privateKeys[sks.group]`: when `!ok`, `priv` is nil, an error is
  -- formatted by `fmt.Errorf` and dropped, and the function goes on
  let priv := (privateKeys.lookup sks.group).getD []
  Run.pre [.keyAgreement sks.group sks.keyExchange priv] <|
  match P.keyAgreement sks.group sks.keyExchange priv with
  | (_, some err) => ⟨.panicked err, c, [], rest⟩
  | (ES, none) =>
  -- Init crypto context and rekey
  let ctx := P.Init cryptoContext.zero ch sh ES ES sh.cipherSuite
  Run.pre [.init ch sh ES ES sh.cipherSuite,
    .rekey .inbound ctx.suite ctx.handshakeKeys.serverWriteKey
      ctx.handshakeKeys.serverWriteIV] <|
  match P.Rekey .inbound ctx.suite ctx.handshakeKeys.serverWriteKey
    ctx.handshakeKeys.serverWriteIV with
  | some err => Run.fail err c rest
  | none =>
  Run.pre [.rekey .outbound ctx.suite ctx.handshakeKeys.serverWriteKey
    ctx.handshakeKeys.serverWriteIV] <|
  match P.Rekey .outbound ctx.suite ctx.handshakeKeys.serverWriteKey
    ctx.handshakeKeys.serverWriteIV with
  | some err => Run.fail err c rest
  | none =>
  -- Read to Finished
  clientReadToFinished P c ctx [] rest

/-! ## `ServerHandshake` -/

def config_supportedGroup : List (namedGroup × Bool) :=
  [(namedGroupP384, true), (namedGroupP521, true)]

def config_supportedCiphersuite : List (cipherSuite × Bool) :=
  [(TLS_ECDHE_ECDSA_WITH_AES_128_GCM_SHA256, true),
   (TLS_ECDHE_RSA_WITH_AES_128_GCM_SHA256, true)]

/-- The loop "Find key_share extension and do key agreement" (lines 190-206): the
effects, and either the error returned from inside the loop or the values of
`serverKeyShare` (`none` for nil) and `ES` after it. The error of `keyAgreement` is
assigned and never read. -/
def serverKeyShareLoop (P : Env) :
    List keyShare → List Event × Except GoError (Option (List keyShare) × Bytes)
  | [] => ([], .ok (none, []))
  | share :: shares =>
    if mapGet config_supportedGroup share.group then
      match P.newKeyShare share.group with
      | .error err => ([.newKeyShare share.group], .error err)
      | .ok (pub, priv) =>
        let ES := (P.keyAgreement share.group share.keyExchange priv).1
        ([.newKeyShare share.group, .keyAgreement share.group share.keyExchange priv],
          .ok (some [⟨share.group, pub⟩], ES))
    else serverKeyShareLoop P shares

/-- The loop "Pick a ciphersuite" (lines 212-219): `chosenSuite` and
`foundCipherSuite` after it. The loop has no `break`. -/
def pickCipherSuite (cipherSuites : List cipherSuite) : cipherSuite × Bool :=
  cipherSuites.foldl
    (fun acc suite => if mapGet config_supportedCiphersuite suite then (suite, true) else acc)
    (0, false)

/-- Lines 246-281 of `ServerHandshake`: `Update` with an empty transcript, the
server's Finished, the reading and verification of the client's Finished, the rekey to
application keys and the assignment of `c.context`. -/
def serverFinish (P : Env) (c : Conn) (ctx0 : cryptoContext)
    (rest : List handshakeMessage) : Run :=
  -- TODO Create and send Certificate, CertificateVerify
  let transcript : List handshakeMessageBody := []
  let ctx := P.Update ctx0 transcript
  Run.pre [.update transcript, .write (.finished ctx.serverFinished)] <|
  -- Create and write server Finished
  match P.WriteMessageBody (.finished ctx.serverFinished) with
  | some err => Run.fail err c rest
  | none =>
  -- Read and verify client Finished
  match ReadMessageBody_finished P ctx.clientFinished.verifyDataLen rest with
  | (evs, .error err, rest) => Run.pre evs (Run.fail err c rest)
  | (evs, .ok verifyData, rest) =>
  Run.pre evs <|
  Run.pre [.bytesEqual verifyData ctx.clientFinished.verifyData] <|
  if verifyData ≠ ctx.clientFinished.verifyData then
    Run.fail (.errorf "tls.client: Client's Finished failed to verify") c rest
  else
  -- Rekey to application keys
  Run.pre [.rekey .inbound ctx.suite ctx.applicationKeys.serverWriteKey
    ctx.applicationKeys.serverWriteIV] <|
  match P.Rekey .inbound ctx.suite ctx.applicationKeys.serverWriteKey
    ctx.applicationKeys.serverWriteIV with
  | some err => Run.fail err c rest
  | none =>
  Run.pre [.rekey .outbound ctx.suite ctx.applicationKeys.serverWriteKey
    ctx.applicationKeys.serverWriteIV] <|
  match P.Rekey .outbound ctx.suite ctx.applicationKeys.serverWriteKey
    ctx.applicationKeys.serverWriteIV with
  | some err => Run.fail err c rest
  | none =>
  ⟨.returned none, { c with context := ctx }, [.setContext ctx], rest⟩

/-- The method `Conn.ServerHandshake`, on the messages `input` still to arrive. -/
def ServerHandshake (P : Env) (c : Conn) (input : List handshakeMessage) : Run :=
  -- Read ClientHello and extract extensions
  match ReadMessageBody_clientHello input with
  | (evs, .error err, rest) => Run.pre evs (Run.fail err c rest)
  | (evs, .ok ch, rest) =>
  Run.pre evs <|
  let gotServerName := (ch.extensions.Find (.serverName "")).isSome
  let gotSupportedGroups := (ch.extensions.Find (.supportedGroups [])).isSome
  let gotSignatureAlgorithms := (ch.extensions.Find (.signatureAlgorithms [])).isSome
  let clientKeyShares := ch.extensions.FindKeyShare false
  let gotKeyShares := clientKeyShares.isSome
  if !gotServerName || !gotSupportedGroups || !gotSignatureAlgorithms || !gotKeyShares then
    Run.fail (.errorf "tls.server: Missing extension in ClientHello") c rest
  else
  -- Find key_share extension and do key agreement
  match serverKeyShareLoop P (clientKeyShares.getD []) with
  | (evs, .error err) => Run.pre evs (Run.fail err c rest)
  | (evs, .ok (serverKeyShare, ES)) =>
  Run.pre evs <|
  match serverKeyShare with
  | none => Run.fail (.errorf "tls.server: Key agreement failed") c rest
  | some serverShares =>
  if ES.length = 0 then Run.fail (.errorf "tls.server: Key agreement failed") c rest
  else
  -- Pick a ciphersuite
  let chosenSuite := (pickCipherSuite ch.cipherSuites).1
  let foundCipherSuite := (pickCipherSuite ch.cipherSuites).2
  if !foundCipherSuite then
    Run.fail (.errorf "tls.server: No acceptable ciphersuites") c rest
  else
  -- Create and write ServerHello
  let sh : serverHelloBody :=
    { cipherSuite := chosenSuite
      extensions := extensionList.Add [] (.keyShare true serverShares) }
  Run.pre [.write (.serverHello sh)] <|
  match P.WriteMessageBody (.serverHello sh) with
  | some err => Run.fail err c rest
  | none =>
  -- Init context and rekey to handshake keys
  let ctx := P.Init cryptoContext.zero ch sh ES ES chosenSuite
  Run.pre [.init ch sh ES ES chosenSuite,
    .rekey .inbound ctx.suite ctx.handshakeKeys.serverWriteKey
      ctx.handshakeKeys.serverWriteIV] <|
  match P.Rekey .inbound ctx.suite ctx.handshakeKeys.serverWriteKey
    ctx.handshakeKeys.serverWriteIV with
  | some err => Run.fail err c rest
  | none =>
  Run.pre [.rekey .outbound ctx.suite ctx.handshakeKeys.serverWriteKey
    ctx.handshakeKeys.serverWriteIV] <|
  match P.Rekey .outbound ctx.suite ctx.handshakeKeys.serverWriteKey
    ctx.handshakeKeys.serverWriteIV with
  | some err => Run.fail err c rest
  | none =>
  -- Update the crypto context, exchange and verify Finished
  serverFinish P c ctx rest

/-! ## Observations on traces -/

/-- The call `Rekey(ctx.suite, ctx.handshakeKeys.serverWriteKey,
ctx.handshakeKeys.serverWriteIV)` on a channel. -/
def handshakeRekey (channel : Channel) (ctx : cryptoContext) : Event :=
  .rekey channel ctx.suite ctx.handshakeKeys.serverWriteKey ctx.handshakeKeys.serverWriteIV

/-- The call `Rekey(ctx.suite, ctx.applicationKeys.serverWriteKey,
ctx.applicationKeys.serverWriteIV)` on a channel. -/
def applicationRekey (channel : Channel) (ctx : cryptoContext) : Event :=
  .rekey channel ctx.suite ctx.applicationKeys.serverWriteKey
    ctx.applicationKeys.serverWriteIV

/-- Whether an event is a step of the key schedule or the assignment of the context:
`Init`, `Rekey`, `Update`, the comparison of verify-data, `c.context = ctx`. The other
events are key generation, key agreement, reads and writes. -/
def Event.isKeyStep : Event → Bool
  | .init _ _ _ _ _ => true
  | .rekey _ _ _ _ => true
  | .update _ => true
  | .bytesEqual _ _ => true
  | .setContext _ => true
  | _ => false

/-- A run, entered with the initialised context `ctx0`, that ends by attaching `ctx`:
it returns nil, `ctx` is `ctx0` after `Update`, the verify-data compared were equal,
and the last three effects are the two rekeys to application keys, both successful,
and the assignment. -/
def ClosesWith (P : Env) (c : Conn) (ctx0 ctx : cryptoContext) (r : Run) : Prop :=
  ∃ (mid : List Event) (t : List handshakeMessageBody) (mid2 : List Event) (v : Bytes)
    (mid3 : List Event),
    ctx = P.Update ctx0 t ∧ r.outcome = .returned none ∧
    r.conn = { c with context := ctx } ∧
    P.Rekey .inbound ctx.suite ctx.applicationKeys.serverWriteKey
      ctx.applicationKeys.serverWriteIV = none ∧
    P.Rekey .outbound ctx.suite ctx.applicationKeys.serverWriteKey
      ctx.applicationKeys.serverWriteIV = none ∧
    (∀ ev ∈ mid, ev.isKeyStep = false) ∧ (∀ ev ∈ mid2, ev.isKeyStep = false) ∧
    (∀ ev ∈ mid3, ev.isKeyStep = false) ∧
    r.trace = mid ++ .update t :: mid2 ++ .bytesEqual v v :: mid3 ++
      [applicationRekey .inbound ctx, applicationRekey .outbound ctx, .setContext ctx]

/-- What holds of the part of a run that follows the rekey to handshake keys. -/
def StageSpec (P : Env) (c : Conn) (ctx0 : cryptoContext) (r : Run) : Prop :=
  (r.outcome ≠ .returned none → r.conn = c ∧ ∀ ctx, Event.setContext ctx ∉ r.trace) ∧
  ((∀ ctx, Event.setContext ctx ∉ r.trace) → r.conn = c) ∧
  (∀ a b, Event.bytesEqual a b ∈ r.trace → a ≠ b →
    ∃ e, r.outcome = .returned (some e)) ∧
  (∀ ctx, Event.setContext ctx ∈ r.trace → ClosesWith P c ctx0 ctx r)

/-- What holds of a whole run, `stage` being the part of the driver that follows the
rekey to handshake keys: either the run stopped before that part, leaving the
connection as it was, without comparing verify-data or assigning a context; or it is
`Init`, the two rekeys to handshake keys and then that part, preceded by effects that
are not key-schedule steps. -/
def Reaches (P : Env) (c : Conn) (stage : cryptoContext → List handshakeMessage → Run)
    (r : Run) : Prop :=
  (r.conn = c ∧ (∀ ctx, Event.setContext ctx ∉ r.trace) ∧
    (∀ a b, Event.bytesEqual a b ∉ r.trace)) ∨
  ∃ (front : List Event) (ch : clientHelloBody) (sh : serverHelloBody) (es : Bytes)
    (suite : cipherSuite) (rest : List handshakeMessage),
    (∀ ev ∈ front, ev.isKeyStep = false) ∧
    r = Run.pre (front ++ [.init ch sh es es suite,
          handshakeRekey .inbound (P.Init cryptoContext.zero ch sh es es suite),
          handshakeRekey .outbound (P.Init cryptoContext.zero ch sh es es suite)])
        (stage (P.Init cryptoContext.zero ch sh es es suite) rest)

/-! ## Two peers over a duplex channel -/

/-- The messages a run put on the wire, in order. -/
def wireOf : List Event → List handshakeMessage
  | [] => []
  | .write body :: evs => frame body :: wireOf evs
  | _ :: evs => wireOf evs

/-- One round of the exchange between a client and a server joined by a lossless,
in-order duplex channel: each driver is run on what the other has written so far.
The state is (written by the client, written by the server). -/
def duplexStep (Pc Ps : Env) (cc sc : Conn)
    (st : List handshakeMessage × List handshakeMessage) :
    List handshakeMessage × List handshakeMessage :=
  (wireOf (ClientHandshake Pc cc st.2).trace, wireOf (ServerHandshake Ps sc st.1).trace)

/-- The exchange after `n` rounds, starting with nothing written. A driver that finds
its inbound stream exhausted has, in that round, written what it writes before
blocking on the read. -/
def duplexRun (Pc Ps : Env) (cc sc : Conn) : Nat → List handshakeMessage × List handshakeMessage
  | 0 => ([], [])
  | n + 1 => duplexStep Pc Ps cc sc (duplexRun Pc Ps cc sc n)

/-- The transcripts handed to `Update` in a run. -/
def updatesOf : List Event → List (List handshakeMessageBody)
  | [] => []
  | .update t :: evs => t :: updatesOf evs
  | _ :: evs => updatesOf evs

/-- The `Rekey` calls of a run, in order. -/
def rekeysOf : List Event → List Event
  | [] => []
  | .rekey ch s k iv :: evs => .rekey ch s k iv :: rekeysOf evs
  | _ :: evs => rekeysOf evs

/-! ## A concrete environment

Toy collaborators on which the drivers can be evaluated: Diffie-Hellman modulo 23 in
place of the curves, and a key schedule that only tags its inputs. -/

/-- Toy key agreement: a share and a private key are one number each, and only the
three known groups are accepted. -/
def toyKeyAgreement (group : namedGroup) (pub priv : Bytes) : Bytes × Option GoError :=
  if group = namedGroupP256 ∨ group = namedGroupP384 ∨ group = namedGroupP521 then
    match pub, priv with
    | [y], [x] => ([y ^ x % 23], none)
    | _, _ => ([], some (.external "tls.keyagreement: Wrong public key size"))
  else ([], some (.external "tls.keyagreement: Unsupported group"))

/-- Toy key generation with private exponent `x`. -/
def toyNewKeyShare (x : Nat) (group : namedGroup) : Except GoError (Bytes × Bytes) :=
  if group = namedGroupP256 ∨ group = namedGroupP384 ∨ group = namedGroupP521 then
    .ok ([5 ^ (x + group) % 23], [x + group])
  else .error (.external "tls.newkeyshare: Unsupported group")

def toyInit (_ctx : cryptoContext) (ch : clientHelloBody) (sh : serverHelloBody)
    (es ss : Bytes) (suite : cipherSuite) : cryptoContext :=
  { suite := suite
    handshakeKeys := ⟨1 :: es, 2 :: es, 3 :: ss, 4 :: ss⟩
    applicationKeys := ⟨[], [], [], []⟩
    clientFinished := ⟨verifyDataLen, []⟩
    serverFinished := ⟨verifyDataLen, []⟩
    secret := es ++ [ch.cipherSuites.length, sh.cipherSuite] }

def toyUpdate (ctx : cryptoContext) (transcript : List handshakeMessageBody) : cryptoContext :=
  { ctx with
    applicationKeys := ⟨5 :: ctx.secret, 6 :: ctx.secret, [7], [8]⟩
    clientFinished := ⟨verifyDataLen, List.replicate verifyDataLen (transcript.length + 1)⟩
    serverFinished := ⟨verifyDataLen, List.replicate verifyDataLen (transcript.length + 2)⟩ }

def toyFinishedUnmarshal (n : Nat) (data : Bytes) : Except GoError Bytes :=
  if data.length < n then .error (.external "tls.finished: Malformed finished; too short")
  else .ok (data.take n)

/-- The toy environment of a peer whose private exponents are offset by `x`. -/
def toyEnv (x : Nat) : Env where
  newKeyShare := toyNewKeyShare x
  keyAgreement := toyKeyAgreement
  Init := toyInit
  Update := toyUpdate
  Rekey := fun _ _ _ _ => none
  WriteMessageBody := fun _ => none
  toBody := fun t data => .ok (.other t data)
  finishedUnmarshal := toyFinishedUnmarshal

/-- A connection before any handshake. -/
def Conn.fresh : Conn := ⟨cryptoContext.zero⟩

/-! ## Concrete inputs -/

/-- The ClientHello of a toy client: the driver's own suites, groups and extensions. -/
def offeredHello : clientHelloBody :=
  buildClientHello [⟨namedGroupP256, [4]⟩, ⟨namedGroupP384, [20]⟩, ⟨namedGroupP521, [8]⟩]

/-- A ClientHello that offers a share for P-256 only. -/
def p256OnlyHello : clientHelloBody :=
  buildClientHello [⟨namedGroupP256, [4]⟩]

/-- A ServerHello whose key share names group 29, which the client never offers. -/
def unofferedGroupHello : serverHelloBody :=
  ⟨TLS_ECDHE_ECDSA_WITH_AES_128_GCM_SHA256, [.keyShare true [⟨29, [16]⟩]]⟩

/-- A ServerHello without a key_share extension. -/
def noKeyShareHello : serverHelloBody :=
  ⟨TLS_ECDHE_ECDSA_WITH_AES_128_GCM_SHA256, []⟩

/-- A ServerHello whose P-256 share has the wrong size. -/
def badShareHello : serverHelloBody :=
  ⟨TLS_ECDHE_ECDSA_WITH_AES_128_GCM_SHA256, [.keyShare true [⟨namedGroupP256, [1, 2]⟩]]⟩

/-- The ServerHello a toy server answers `offeredHello` with. -/
def toyServerHello : serverHelloBody :=
  ⟨TLS_ECDHE_RSA_WITH_AES_128_GCM_SHA256, [.keyShare true [⟨namedGroupP384, [16]⟩]]⟩

/-- The context a toy client and a toy server end with after exchanging
`offeredHello` and `toyServerHello`. -/
def toyContext : cryptoContext :=
  toyUpdate (toyInit cryptoContext.zero offeredHello toyServerHello [6] [6]
    TLS_ECDHE_RSA_WITH_AES_128_GCM_SHA256) []

/-- The server's Finished of the toy exchange. -/
def toyServerFinished : handshakeMessage :=
  .raw handshakeTypeFinished toyContext.serverFinished.verifyData

/-- The server's Finished of the toy exchange with its first byte changed. -/
def tamperedServerFinished : handshakeMessage :=
  .raw handshakeTypeFinished (toyContext.serverFinished.verifyData.set 0 9)

/-- The client's Finished of the toy exchange with its first byte changed. -/
def tamperedClientFinished : handshakeMessage :=
  .raw handshakeTypeFinished (toyContext.clientFinished.verifyData.set 0 9)

/-- A message of type 11 (Certificate), which the toy `toBody` gives a body. -/
def certificateMessage : handshakeMessage := .raw 11 [1, 2, 3]

/-! ## Evaluations at concrete inputs -/

/-- C1, the code at the failing input: the client lists the ECDSA suite first and the
RSA suite second, the server supports both, and the first supported suite of the list
is the ECDSA one; the loop of `ServerHandshake`, which has no `break`, ends on the RSA
suite, and that is the suite of the ServerHello written and of the call to `Init`. -/
theorem C1_server_selects_last_supported_suite :
    offeredHello.cipherSuites =
      [TLS_ECDHE_ECDSA_WITH_AES_128_GCM_SHA256, TLS_ECDHE_RSA_WITH_AES_128_GCM_SHA256] ∧
    offeredHello.cipherSuites.find? (mapGet config_supportedCiphersuite) =
      some TLS_ECDHE_ECDSA_WITH_AES_128_GCM_SHA256 ∧
    pickCipherSuite offeredHello.cipherSuites = (TLS_ECDHE_RSA_WITH_AES_128_GCM_SHA256, true) ∧
    (wireOf (ServerHandshake (toyEnv 6) Conn.fresh [.clientHello offeredHello]).trace).head? =
      some (.serverHello toyServerHello) ∧
    Event.init offeredHello toyServerHello [6] [6] TLS_ECDHE_RSA_WITH_AES_128_GCM_SHA256 ∈
      (ServerHandshake (toyEnv 6) Conn.fresh [.clientHello offeredHello]).trace := by
  refine ⟨rfl, rfl, rfl, rfl, ?_⟩
  decide

/-- C2, the code at the failing input: the ServerHello names group 29, which is not
among the groups the client generated keys for; `ClientHandshake` does not return an
error there but goes on to call `keyAgreement` with a nil private key, and, that call
failing, it panics. -/
theorem C2_unoffered_group_reaches_key_agreement :
    (29 : namedGroup) ∉ config_keyShareGroups ∧
    Event.keyAgreement 29 [16] [] ∈
      (ClientHandshake (toyEnv 3) Conn.fresh [.serverHello unofferedGroupHello]).trace ∧
    (ClientHandshake (toyEnv 3) Conn.fresh [.serverHello unofferedGroupHello]).outcome =
      .panicked (.external "tls.keyagreement: Unsupported group") := by
  refine ⟨by decide, by decide, rfl⟩

/-- C3, the code at the failing input: the ServerHello read has no key_share
extension, `Find` returns false, and `ClientHandshake` returns nil: the connection
is left as it was, and no key agreement, `Init` or `Rekey` has taken place. -/
theorem C3_missing_key_share_returns_nil :
    noKeyShareHello.extensions.FindKeyShare true = none ∧
    ClientHandshake (toyEnv 3) Conn.fresh [.serverHello noKeyShareHello] =
      { outcome := .returned none
        conn := Conn.fresh
        trace := [.newKeyShare namedGroupP256, .newKeyShare namedGroupP384,
          .newKeyShare namedGroupP521, .write (.clientHello offeredHello),
          .read (.serverHello noKeyShareHello)]
        unread := [] } := by
  refine ⟨rfl, rfl⟩

/-- C8, the code at the failing input: the server's P-256 share has the wrong size,
`keyAgreement` fails with an error `e`, and `ClientHandshake` does not return `e`: it
panics with it. -/
theorem C8_key_agreement_failure_panics :
    toyKeyAgreement namedGroupP256 [1, 2] [26] =
      ([], some (.external "tls.keyagreement: Wrong public key size")) ∧
    Event.keyAgreement namedGroupP256 [1, 2] [26] ∈
      (ClientHandshake (toyEnv 3) Conn.fresh [.serverHello badShareHello]).trace ∧
    (ClientHandshake (toyEnv 3) Conn.fresh [.serverHello badShareHello]).outcome =
      .panicked (.external "tls.keyagreement: Wrong public key size") := by
  refine ⟨rfl, by decide, rfl⟩


/-! ## Lemmas on runs -/

@[simp] theorem pre_outcome (evs : List Event) (r : Run) :
    (Run.pre evs r).outcome = r.outcome := rfl

@[simp] theorem pre_conn (evs : List Event) (r : Run) : (Run.pre evs r).conn = r.conn := rfl

@[simp] theorem pre_trace (evs : List Event) (r : Run) :
    (Run.pre evs r).trace = evs ++ r.trace := rfl

@[simp] theorem pre_unread (evs : List Event) (r : Run) :
    (Run.pre evs r).unread = r.unread := rfl

@[simp] theorem fail_outcome (err : GoError) (c : Conn) (rest : List handshakeMessage) :
    (Run.fail err c rest).outcome = .returned (some err) := rfl

@[simp] theorem fail_conn (err : GoError) (c : Conn) (rest : List handshakeMessage) :
    (Run.fail err c rest).conn = c := rfl

@[simp] theorem fail_trace (err : GoError) (c : Conn) (rest : List handshakeMessage) :
    (Run.fail err c rest).trace = [] := rfl

@[simp] theorem fail_unread (err : GoError) (c : Conn) (rest : List handshakeMessage) :
    (Run.fail err c rest).unread = rest := rfl

theorem pre_pre (evs evs2 : List Event) (r : Run) :
    Run.pre evs (Run.pre evs2 r) = Run.pre (evs ++ evs2) r := by
  simp [Run.pre]

/-- A run that left the connection alone and made no key-schedule step meets
`StageSpec`. -/
theorem stageSpec_of_plain (P : Env) (c : Conn) (ctx0 : cryptoContext) (r : Run)
    (hc : r.conn = c) (ht : ∀ ev ∈ r.trace, ev.isKeyStep = false) :
    StageSpec P c ctx0 r := by
  refine ⟨fun _ => ⟨hc, fun ctx h => ?_⟩, fun _ => hc, fun a b h => ?_, fun ctx h => ?_⟩
  · simpa [Event.isKeyStep] using ht _ h
  · simpa [Event.isKeyStep] using ht _ h
  · simpa [Event.isKeyStep] using ht _ h

/-- Effects that are not key-schedule steps may precede a run without harm to
`StageSpec`. -/
theorem stageSpec_pre (P : Env) (c : Conn) (ctx0 : cryptoContext) (evs : List Event)
    (r : Run) (hevs : ∀ ev ∈ evs, ev.isKeyStep = false) (hr : StageSpec P c ctx0 r) :
    StageSpec P c ctx0 (Run.pre evs r) := by
  have hset : ∀ ctx, Event.setContext ctx ∉ evs := fun ctx h => by
    simpa [Event.isKeyStep] using hevs _ h
  have heq : ∀ a b, Event.bytesEqual a b ∉ evs := fun a b h => by
    simpa [Event.isKeyStep] using hevs _ h
  obtain ⟨h1, h2, h3, h4⟩ := hr
  refine ⟨fun ho => ?_, fun hn => ?_, fun a b hm hab => ?_, fun ctx hm => ?_⟩
  · obtain ⟨hc, hn⟩ := h1 (by simpa using ho)
    refine ⟨by simpa using hc, fun ctx hm => ?_⟩
    rcases List.mem_append.1 (by simpa using hm) with h | h
    · exact hset ctx h
    · exact hn ctx h
  · have : r.conn = c := h2 (fun ctx hm => hn ctx (by simp [hm]))
    simpa using this
  · rcases List.mem_append.1 (by simpa using hm) with h | h
    · exact absurd h (heq a b)
    · simpa using h3 a b h hab
  · rcases List.mem_append.1 (by simpa using hm) with h | h
    · exact absurd h (hset ctx)
    · obtain ⟨mid, t, mid2, v, mid3, e1, e2, e3, e4, e5, p1, p2, p3, e6⟩ := h4 ctx h
      refine ⟨evs ++ mid, t, mid2, v, mid3, e1, by simpa using e2, by simpa using e3, e4, e5,
        ?_, p2, p3, ?_⟩
      · intro ev hev
        rcases List.mem_append.1 hev with h | h
        · exact hevs ev h
        · exact p1 ev h
      · simp [e6]

theorem clientFinish_attach (P : Env) (c : Conn) (ctx0 : cryptoContext)
    (t : List handshakeMessageBody) (fm : handshakeMessage) (rest : List handshakeMessage)
    (ctx : cryptoContext)
    (hm : Event.setContext ctx ∈ (clientFinish P c ctx0 t fm rest).trace) :
    ctx = P.Update ctx0 t ∧
    (clientFinish P c ctx0 t fm rest).outcome = .returned none ∧
    (clientFinish P c ctx0 t fm rest).conn = { c with context := ctx } ∧
    P.Rekey .inbound ctx.suite ctx.applicationKeys.serverWriteKey
      ctx.applicationKeys.serverWriteIV = none ∧
    P.Rekey .outbound ctx.suite ctx.applicationKeys.serverWriteKey
      ctx.applicationKeys.serverWriteIV = none ∧
    (clientFinish P c ctx0 t fm rest).trace =
      [.update t, .bytesEqual ctx.serverFinished.verifyData ctx.serverFinished.verifyData,
       .write (.finished ctx.clientFinished),
       applicationRekey .inbound ctx, applicationRekey .outbound ctx, .setContext ctx] := by
  revert hm
  unfold clientFinish applicationRekey
  simp only []
  repeat' split
  all_goals simp_all

theorem clientFinish_spec (P : Env) (c : Conn) (ctx0 : cryptoContext)
    (t : List handshakeMessageBody) (fm : handshakeMessage) (rest : List handshakeMessage) :
    StageSpec P c ctx0 (clientFinish P c ctx0 t fm rest) := by
  unfold StageSpec
  refine ⟨?_, ?_, ?_, ?_⟩
  · unfold clientFinish
    simp only []
    repeat' split
    all_goals simp_all
  · unfold clientFinish
    simp only []
    repeat' split
    all_goals simp_all
  · unfold clientFinish
    simp only []
    repeat' split
    all_goals simp_all
  · intro ctx hm
    obtain ⟨e1, e2, e3, e4, e5, e6⟩ := clientFinish_attach P c ctx0 t fm rest ctx hm
    exact ⟨[], t, [], ctx.serverFinished.verifyData, [.write (.finished ctx.clientFinished)],
      e1, e2, e3, e4, e5, by simp, by simp, by simp [Event.isKeyStep], by simp [e6]⟩

theorem clientReadToFinished_spec (P : Env) (c : Conn) (ctx0 : cryptoContext)
    (input : List handshakeMessage) :
    ∀ transcript, StageSpec P c ctx0 (clientReadToFinished P c ctx0 transcript input) := by
  induction input with
  | nil =>
    intro transcript
    exact stageSpec_of_plain P c ctx0 _ rfl (by simp [clientReadToFinished])
  | cons hm rest ih =>
    intro transcript
    unfold clientReadToFinished
    apply stageSpec_pre _ _ _ _ _ (by simp [Event.isKeyStep])
    split
    · exact clientFinish_spec P c ctx0 transcript hm rest
    · split
      · exact stageSpec_of_plain P c ctx0 _ rfl (by simp)
      · exact ih _

theorem serverFinish_attach (P : Env) (c : Conn) (ctx0 : cryptoContext)
    (rest : List handshakeMessage) (ctx : cryptoContext)
    (hm : Event.setContext ctx ∈ (serverFinish P c ctx0 rest).trace) :
    ctx = P.Update ctx0 [] ∧
    (serverFinish P c ctx0 rest).outcome = .returned none ∧
    (serverFinish P c ctx0 rest).conn = { c with context := ctx } ∧
    P.Rekey .inbound ctx.suite ctx.applicationKeys.serverWriteKey
      ctx.applicationKeys.serverWriteIV = none ∧
    P.Rekey .outbound ctx.suite ctx.applicationKeys.serverWriteKey
      ctx.applicationKeys.serverWriteIV = none ∧
    ∃ fm, (serverFinish P c ctx0 rest).trace =
      [.update [], .write (.finished ctx.serverFinished), .read fm,
       .bytesEqual ctx.clientFinished.verifyData ctx.clientFinished.verifyData,
       applicationRekey .inbound ctx, applicationRekey .outbound ctx, .setContext ctx] := by
  revert hm
  rcases rest with _ | ⟨fm, rest⟩
  · unfold serverFinish ReadMessageBody_finished
    simp only []
    repeat' split
    all_goals ((try simp only [Prod.mk.injEq] at *); (try casesm* _ ∧ _); (try subst_vars); simp_all)
  · by_cases hty : fm.msgType = handshakeTypeFinished
    · unfold serverFinish applicationRekey ReadMessageBody_finished
      simp only [hty, if_true]
      repeat' split
      all_goals ((try simp only [Prod.mk.injEq] at *); (try casesm* _ ∧ _); (try subst_vars); simp_all)
    · unfold serverFinish ReadMessageBody_finished
      simp only [hty, if_false]
      repeat' split
      all_goals ((try simp only [Prod.mk.injEq] at *); (try casesm* _ ∧ _); (try subst_vars); simp_all)

theorem serverFinish_spec (P : Env) (c : Conn) (ctx0 : cryptoContext)
    (rest : List handshakeMessage) :
    StageSpec P c ctx0 (serverFinish P c ctx0 rest) := by
  unfold StageSpec
  refine ⟨?_, ?_, ?_, ?_⟩
  · rcases rest with _ | ⟨fm, rest⟩
    · unfold serverFinish ReadMessageBody_finished
      simp only []
      repeat' split
      all_goals ((try simp only [Prod.mk.injEq] at *); (try casesm* _ ∧ _); (try subst_vars); simp_all)
    · by_cases hty : fm.msgType = handshakeTypeFinished
      · unfold serverFinish ReadMessageBody_finished
        simp only [hty, if_true]
        repeat' split
        all_goals ((try simp only [Prod.mk.injEq] at *); (try casesm* _ ∧ _); (try subst_vars); simp_all)
      · unfold serverFinish ReadMessageBody_finished
        simp only [hty, if_false]
        repeat' split
        all_goals ((try simp only [Prod.mk.injEq] at *); (try casesm* _ ∧ _); (try subst_vars); simp_all)
  · rcases rest with _ | ⟨fm, rest⟩
    · unfold serverFinish ReadMessageBody_finished
      simp only []
      repeat' split
      all_goals ((try simp only [Prod.mk.injEq] at *); (try casesm* _ ∧ _); (try subst_vars); simp_all)
    · by_cases hty : fm.msgType = handshakeTypeFinished
      · unfold serverFinish ReadMessageBody_finished
        simp only [hty, if_true]
        repeat' split
        all_goals ((try simp only [Prod.mk.injEq] at *); (try casesm* _ ∧ _); (try subst_vars); simp_all)
      · unfold serverFinish ReadMessageBody_finished
        simp only [hty, if_false]
        repeat' split
        all_goals ((try simp only [Prod.mk.injEq] at *); (try casesm* _ ∧ _); (try subst_vars); simp_all)
  · rcases rest with _ | ⟨fm, rest⟩
    · unfold serverFinish ReadMessageBody_finished
      simp only []
      repeat' split
      all_goals ((try simp only [Prod.mk.injEq] at *); (try casesm* _ ∧ _); (try subst_vars); simp_all)
    · by_cases hty : fm.msgType = handshakeTypeFinished
      · unfold serverFinish ReadMessageBody_finished
        simp only [hty, if_true]
        repeat' split
        all_goals ((try simp only [Prod.mk.injEq] at *); (try casesm* _ ∧ _); (try subst_vars); simp_all)
      · unfold serverFinish ReadMessageBody_finished
        simp only [hty, if_false]
        repeat' split
        all_goals ((try simp only [Prod.mk.injEq] at *); (try casesm* _ ∧ _); (try subst_vars); simp_all)
  · intro ctx hm
    obtain ⟨e1, e2, e3, e4, e5, fm, e6⟩ := serverFinish_attach P c ctx0 rest ctx hm
    exact ⟨[], [], [.write (.finished ctx.serverFinished), .read fm],
      ctx.clientFinished.verifyData, [], e1, e2, e3, e4, e5, by simp,
      by simp [Event.isKeyStep], by simp, by simp [e6]⟩

theorem clientKeyShareLoop_plain (P : Env) (groups : List namedGroup) :
    ∀ shares privateKeys, ∀ ev ∈ (clientKeyShareLoop P groups shares privateKeys).1,
      ev.isKeyStep = false := by
  induction groups with
  | nil => intro shares privateKeys ev hev; simp [clientKeyShareLoop] at hev
  | cons group groups ih =>
    intro shares privateKeys ev hev
    unfold clientKeyShareLoop at hev
    split at hev
    · simp at hev; subst hev; rfl
    · simp only [List.mem_cons] at hev
      rcases hev with h | h
      · subst h; rfl
      · exact ih _ _ ev h

theorem serverKeyShareLoop_plain (P : Env) (shares : List keyShare) :
    ∀ ev ∈ (serverKeyShareLoop P shares).1, ev.isKeyStep = false := by
  induction shares with
  | nil => intro ev hev; simp [serverKeyShareLoop] at hev
  | cons share shares ih =>
    intro ev hev
    unfold serverKeyShareLoop at hev
    split at hev
    · split at hev
      · simp at hev; subst hev; rfl
      · simp at hev
        rcases hev with h | h <;> subst h <;> rfl
    · exact ih ev hev

theorem ReadMessageBody_serverHello_plain (input : List handshakeMessage) :
    ∀ ev ∈ (ReadMessageBody_serverHello input).1, ev.isKeyStep = false := by
  intro ev hev
  unfold ReadMessageBody_serverHello at hev
  split at hev <;> simp at hev <;> subst hev <;> rfl

theorem ReadMessageBody_clientHello_plain (input : List handshakeMessage) :
    ∀ ev ∈ (ReadMessageBody_clientHello input).1, ev.isKeyStep = false := by
  intro ev hev
  unfold ReadMessageBody_clientHello at hev
  split at hev <;> simp at hev <;> subst hev <;> rfl

/-- A run that stopped before the handshake keys were installed on both channels. -/
theorem reaches_of_plain (P : Env) (c : Conn)
    (stage : cryptoContext → List handshakeMessage → Run) (r : Run)
    (hc : r.conn = c) (ht : ∀ ev ∈ r.trace, ev.isKeyStep = false) :
    Reaches P c stage r := by
  refine Or.inl ⟨hc, fun ctx h => ?_, fun a b h => ?_⟩
  · simpa [Event.isKeyStep] using ht _ h
  · simpa [Event.isKeyStep] using ht _ h

theorem reaches_pre (P : Env) (c : Conn)
    (stage : cryptoContext → List handshakeMessage → Run) (evs : List Event) (r : Run)
    (hevs : ∀ ev ∈ evs, ev.isKeyStep = false) (hr : Reaches P c stage r) :
    Reaches P c stage (Run.pre evs r) := by
  have hset : ∀ ctx, Event.setContext ctx ∉ evs := fun ctx h => by
    simpa [Event.isKeyStep] using hevs _ h
  have heq : ∀ a b, Event.bytesEqual a b ∉ evs := fun a b h => by
    simpa [Event.isKeyStep] using hevs _ h
  rcases hr with ⟨hc, h1, h2⟩ | ⟨front, ch, sh, es, suite, rest, hp, he⟩
  · refine Or.inl ⟨by simpa using hc, fun ctx h => ?_, fun a b h => ?_⟩
    · rcases List.mem_append.1 (by simpa using h) with h | h
      · exact hset ctx h
      · exact h1 ctx h
    · rcases List.mem_append.1 (by simpa using h) with h | h
      · exact heq a b h
      · exact h2 a b h
  · refine Or.inr ⟨evs ++ front, ch, sh, es, suite, rest, ?_, ?_⟩
    · intro ev hev
      rcases List.mem_append.1 hev with h | h
      · exact hevs ev h
      · exact hp ev h
    · rw [he, pre_pre]; simp

/-- The run from `Init` on: the two rekeys to handshake keys, then the stage. -/
theorem reaches_init (P : Env) (c : Conn)
    (stage : cryptoContext → List handshakeMessage → Run)
    (ch : clientHelloBody) (sh : serverHelloBody) (es : Bytes) (suite : cipherSuite)
    (rest : List handshakeMessage) :
    Reaches P c stage
      (Run.pre [.init ch sh es es suite,
          .rekey .inbound (P.Init cryptoContext.zero ch sh es es suite).suite
            (P.Init cryptoContext.zero ch sh es es suite).handshakeKeys.serverWriteKey
            (P.Init cryptoContext.zero ch sh es es suite).handshakeKeys.serverWriteIV]
        (match P.Rekey .inbound (P.Init cryptoContext.zero ch sh es es suite).suite
            (P.Init cryptoContext.zero ch sh es es suite).handshakeKeys.serverWriteKey
            (P.Init cryptoContext.zero ch sh es es suite).handshakeKeys.serverWriteIV with
        | some err => Run.fail err c rest
        | none =>
          Run.pre [.rekey .outbound (P.Init cryptoContext.zero ch sh es es suite).suite
            (P.Init cryptoContext.zero ch sh es es suite).handshakeKeys.serverWriteKey
            (P.Init cryptoContext.zero ch sh es es suite).handshakeKeys.serverWriteIV]
          (match P.Rekey .outbound (P.Init cryptoContext.zero ch sh es es suite).suite
              (P.Init cryptoContext.zero ch sh es es suite).handshakeKeys.serverWriteKey
              (P.Init cryptoContext.zero ch sh es es suite).handshakeKeys.serverWriteIV with
          | some err => Run.fail err c rest
          | none => stage (P.Init cryptoContext.zero ch sh es es suite) rest))) := by
  split
  · exact Or.inl (by simp)
  · split
    · exact Or.inl (by simp)
    · exact Or.inr ⟨[], ch, sh, es, suite, rest, by simp, by simp [pre_pre, handshakeRekey]⟩

theorem ClientHandshake_reaches (P : Env) (c : Conn) (input : List handshakeMessage) :
    Reaches P c (fun ctx rest => clientReadToFinished P c ctx [] rest)
      (ClientHandshake P c input) := by
  unfold ClientHandshake
  have hks := clientKeyShareLoop_plain P config_keyShareGroups [] []
  have hrd := ReadMessageBody_serverHello_plain input
  split
  · rename_i evs err heq
    rw [heq] at hks
    exact reaches_pre _ _ _ _ _ hks (reaches_of_plain _ _ _ _ rfl (by simp))
  · rename_i evs shares privateKeys heq
    rw [heq] at hks
    apply reaches_pre _ _ _ _ _ hks
    apply reaches_pre _ _ _ _ _ (by simp [Event.isKeyStep])
    split
    · exact reaches_of_plain _ _ _ _ rfl (by simp)
    · split
      · rename_i evs2 err rest heq2
        rw [heq2] at hrd
        exact reaches_pre _ _ _ _ _ hrd (reaches_of_plain _ _ _ _ rfl (by simp))
      · rename_i evs2 sh rest heq2
        rw [heq2] at hrd
        apply reaches_pre _ _ _ _ _ hrd
        split
        · exact reaches_of_plain _ _ _ _ rfl (by simp)
        · exact reaches_of_plain _ _ _ _ rfl (by simp)
        · apply reaches_pre _ _ _ _ _ (by simp [Event.isKeyStep])
          split
          · exact reaches_of_plain _ _ _ _ rfl (by simp)
          · exact reaches_init P c _ _ _ _ _ _

theorem ServerHandshake_reaches (P : Env) (c : Conn) (input : List handshakeMessage) :
    Reaches P c (fun ctx rest => serverFinish P c ctx rest)
      (ServerHandshake P c input) := by
  unfold ServerHandshake
  have hrd := ReadMessageBody_clientHello_plain input
  split
  · rename_i evs err rest heq
    rw [heq] at hrd
    exact reaches_pre _ _ _ _ _ hrd (reaches_of_plain _ _ _ _ rfl (by simp))
  · rename_i evs ch rest heq
    rw [heq] at hrd
    apply reaches_pre _ _ _ _ _ hrd
    simp only []
    split
    · exact reaches_of_plain _ _ _ _ rfl (by simp)
    · have hks := serverKeyShareLoop_plain P ((ch.extensions.FindKeyShare false).getD [])
      split
      · rename_i evs2 err heq2
        rw [heq2] at hks
        exact reaches_pre _ _ _ _ _ hks (reaches_of_plain _ _ _ _ rfl (by simp))
      · rename_i evs2 sks ES heq2
        rw [heq2] at hks
        apply reaches_pre _ _ _ _ _ hks
        split
        · exact reaches_of_plain _ _ _ _ rfl (by simp)
        · split
          · exact reaches_of_plain _ _ _ _ rfl (by simp)
          · split
            · exact reaches_of_plain _ _ _ _ rfl (by simp)
            · apply reaches_pre _ _ _ _ _ (by simp [Event.isKeyStep])
              split
              · exact reaches_of_plain _ _ _ _ rfl (by simp)
              · exact reaches_init P c _ _ _ _ _ _

theorem rekeysOf_append (xs ys : List Event) :
    rekeysOf (xs ++ ys) = rekeysOf xs ++ rekeysOf ys := by
  induction xs with
  | nil => rfl
  | cons x xs ih => cases x <;> simp [rekeysOf, ih]

theorem rekeysOf_plain (xs : List Event) (h : ∀ ev ∈ xs, ev.isKeyStep = false) :
    rekeysOf xs = [] := by
  induction xs with
  | nil => rfl
  | cons x xs ih =>
    have hx := h x (by simp)
    have hxs := ih (fun ev hev => h ev (by simp [hev]))
    cases x <;> simp_all [rekeysOf, Event.isKeyStep]

/-- The whole-run consequences of `Reaches` and `StageSpec`. -/
theorem run_spec (P : Env) (c : Conn) (stage : cryptoContext → List handshakeMessage → Run)
    (r : Run) (hreach : Reaches P c stage r)
    (hstage : ∀ ctx0 rest, StageSpec P c ctx0 (stage ctx0 rest)) :
    (r.outcome ≠ .returned none → r.conn = c ∧ ∀ ctx, Event.setContext ctx ∉ r.trace) ∧
    ((∀ ctx, Event.setContext ctx ∉ r.trace) → r.conn = c) ∧
    (∀ a b, Event.bytesEqual a b ∈ r.trace → a ≠ b → ∃ e, r.outcome = .returned (some e)) ∧
    (∀ ctx, Event.setContext ctx ∈ r.trace →
      ∃ (front : List Event) (ch : clientHelloBody) (sh : serverHelloBody) (es : Bytes)
        (suite : cipherSuite) (tail : Run),
        (∀ ev ∈ front, ev.isKeyStep = false) ∧
        r.trace = front ++ [.init ch sh es es suite,
          handshakeRekey .inbound (P.Init cryptoContext.zero ch sh es es suite),
          handshakeRekey .outbound (P.Init cryptoContext.zero ch sh es es suite)] ++ tail.trace ∧
        r.outcome = tail.outcome ∧ r.conn = tail.conn ∧
        ClosesWith P c (P.Init cryptoContext.zero ch sh es es suite) ctx tail) := by
  rcases hreach with ⟨hc, h1, h2⟩ | ⟨front, ch, sh, es, suite, rest, hp, he⟩
  · exact ⟨fun _ => ⟨hc, h1⟩, fun _ => hc, fun a b h => absurd h (h2 a b),
      fun ctx h => absurd h (h1 ctx)⟩
  · obtain ⟨s1, s2, s3, s4⟩ := hstage (P.Init cryptoContext.zero ch sh es es suite) rest
    have hset : ∀ ctx, Event.setContext ctx ∉ front := fun ctx h => by
      simpa [Event.isKeyStep] using hp _ h
    have hbe : ∀ a b, Event.bytesEqual a b ∉ front := fun a b h => by
      simpa [Event.isKeyStep] using hp _ h
    subst he
    refine ⟨fun ho => ?_, fun hn => ?_, fun a b hm hab => ?_, fun ctx hm => ?_⟩
    · obtain ⟨hc, hn⟩ := s1 (by simpa using ho)
      refine ⟨by simpa using hc, fun ctx hm => ?_⟩
      simp only [pre_trace, List.mem_append, List.mem_cons, List.mem_singleton,
        handshakeRekey] at hm
      rcases hm with (h | h) | h
      · exact hset ctx h
      · simp at h
      · exact hn ctx h
    · have : (stage (P.Init cryptoContext.zero ch sh es es suite) rest).conn = c :=
        s2 (fun ctx hm => hn ctx (by simp [hm]))
      simpa using this
    · simp only [pre_trace, List.mem_append, List.mem_cons, List.mem_singleton,
        handshakeRekey] at hm
      rcases hm with (h | h) | h
      · exact absurd h (hbe a b)
      · simp at h
      · simpa using s3 a b h hab
    · simp only [pre_trace, List.mem_append, List.mem_cons, List.mem_singleton,
        handshakeRekey] at hm
      rcases hm with (h | h) | h
      · exact absurd h (hset ctx)
      · simp at h
      · exact ⟨front, ch, sh, es, suite, _, hp, rfl, rfl, rfl, s4 ctx h⟩

/-- Either driver meets the whole-run consequences, for some stage. -/
theorem driver_spec (P : Env) (c : Conn) (input : List handshakeMessage) (r : Run)
    (hr : r = ClientHandshake P c input ∨ r = ServerHandshake P c input) :
    (r.outcome ≠ .returned none → r.conn = c ∧ ∀ ctx, Event.setContext ctx ∉ r.trace) ∧
    ((∀ ctx, Event.setContext ctx ∉ r.trace) → r.conn = c) ∧
    (∀ a b, Event.bytesEqual a b ∈ r.trace → a ≠ b → ∃ e, r.outcome = .returned (some e)) ∧
    (∀ ctx, Event.setContext ctx ∈ r.trace →
      ∃ (front : List Event) (ch : clientHelloBody) (sh : serverHelloBody) (es : Bytes)
        (suite : cipherSuite) (tail : Run),
        (∀ ev ∈ front, ev.isKeyStep = false) ∧
        r.trace = front ++ [.init ch sh es es suite,
          handshakeRekey .inbound (P.Init cryptoContext.zero ch sh es es suite),
          handshakeRekey .outbound (P.Init cryptoContext.zero ch sh es es suite)] ++ tail.trace ∧
        r.outcome = tail.outcome ∧ r.conn = tail.conn ∧
        ClosesWith P c (P.Init cryptoContext.zero ch sh es es suite) ctx tail) := by
  rcases hr with h | h
  · subst h
    exact run_spec P c _ _ (ClientHandshake_reaches P c input)
      (fun ctx0 rest => clientReadToFinished_spec P c ctx0 rest [])
  · subst h
    exact run_spec P c _ _ (ServerHandshake_reaches P c input)
      (fun ctx0 rest => serverFinish_spec P c ctx0 rest)

/-! ## The client's exits around key agreement -/

/-- Whatever the environment: a ServerHello without a key share for the server role
makes `ClientHandshake` return nil, the connection left as it was. -/
theorem ClientHandshake_missing_key_share (P : Env) (c : Conn) (sh : serverHelloBody)
    (rest : List handshakeMessage) (evs : List Event) (shares : List keyShare)
    (privateKeys : List (namedGroup × Bytes))
    (hgen : clientKeyShareLoop P config_keyShareGroups [] [] = (evs, .ok (shares, privateKeys)))
    (hwrite : P.WriteMessageBody (.clientHello (buildClientHello shares)) = none)
    (hfind : sh.extensions.FindKeyShare true = none) :
    ClientHandshake P c (.serverHello sh :: rest) =
      { outcome := .returned none
        conn := c
        trace := evs ++ [.write (.clientHello (buildClientHello shares)),
          .read (.serverHello sh)]
        unread := rest } := by
  unfold ClientHandshake
  simp [hgen, hwrite, ReadMessageBody_serverHello, hfind, Run.pre]

/-- Whatever the environment: when the server's share names a group that is not a key
of `privateKeys`, `ClientHandshake` calls `keyAgreement` with a nil private key. -/
theorem ClientHandshake_unoffered_group (P : Env) (c : Conn) (sh : serverHelloBody)
    (rest : List handshakeMessage) (evs : List Event) (shares : List keyShare)
    (privateKeys : List (namedGroup × Bytes)) (sks : keyShare) (more : List keyShare)
    (hgen : clientKeyShareLoop P config_keyShareGroups [] [] = (evs, .ok (shares, privateKeys)))
    (hwrite : P.WriteMessageBody (.clientHello (buildClientHello shares)) = none)
    (hfind : sh.extensions.FindKeyShare true = some (sks :: more))
    (hlookup : privateKeys.lookup sks.group = none) :
    Event.keyAgreement sks.group sks.keyExchange [] ∈
      (ClientHandshake P c (.serverHello sh :: rest)).trace := by
  unfold ClientHandshake
  simp [hgen, hwrite, ReadMessageBody_serverHello, hfind, hlookup]

/-- Whatever the environment: when `keyAgreement` on the server's share fails with
`e`, `ClientHandshake` panics with `e`. -/
theorem ClientHandshake_key_agreement_error (P : Env) (c : Conn) (sh : serverHelloBody)
    (rest : List handshakeMessage) (evs : List Event) (shares : List keyShare)
    (privateKeys : List (namedGroup × Bytes)) (sks : keyShare) (more : List keyShare)
    (ES : Bytes) (e : GoError)
    (hgen : clientKeyShareLoop P config_keyShareGroups [] [] = (evs, .ok (shares, privateKeys)))
    (hwrite : P.WriteMessageBody (.clientHello (buildClientHello shares)) = none)
    (hfind : sh.extensions.FindKeyShare true = some (sks :: more))
    (hagree : P.keyAgreement sks.group sks.keyExchange
      ((privateKeys.lookup sks.group).getD []) = (ES, some e)) :
    (ClientHandshake P c (.serverHello sh :: rest)).outcome = .panicked e ∧
    (ClientHandshake P c (.serverHello sh :: rest)).conn = c := by
  unfold ClientHandshake
  simp [hgen, hwrite, ReadMessageBody_serverHello, hfind, hagree]

/-! ## Properties of the drivers -/

/-- C4: in every run of `ClientHandshake` and of `ServerHandshake` that reaches the
verification of the peer's Finished, that is, that compares the verify-data `a` decoded
from it with the value `b` of the context (`ctx.serverFinished.verifyData` for the
client, `ctx.clientFinished.verifyData` for the server): if `a` differs from `b`, the
driver returns a non-nil error, and the connection is left as it was. In particular
(second part), a Finished whose body is the expected verify-data with the byte at one
position changed, and that decodes to its own bytes, makes the receiver fail. -/
theorem C4_finished_mismatch_is_an_error (P : Env) (c : Conn) :
    (∀ (input : List handshakeMessage) (r : Run),
      (r = ClientHandshake P c input ∨ r = ServerHandshake P c input) →
      ∀ a b : Bytes, Event.bytesEqual a b ∈ r.trace → a ≠ b →
        (∃ e, r.outcome = .returned (some e)) ∧ r.conn = c) ∧
    (∀ (ctx0 : cryptoContext) (t : List handshakeMessageBody) (rest : List handshakeMessage)
      (i : Nat) (x : Nat),
      i < (P.Update ctx0 t).serverFinished.verifyData.length →
      (P.Update ctx0 t).serverFinished.verifyData[i]? ≠ some x →
      P.finishedUnmarshal (P.Update ctx0 t).serverFinished.verifyDataLen
        ((P.Update ctx0 t).serverFinished.verifyData.set i x) =
          .ok ((P.Update ctx0 t).serverFinished.verifyData.set i x) →
      (clientFinish P c ctx0 t
        (.raw handshakeTypeFinished ((P.Update ctx0 t).serverFinished.verifyData.set i x))
        rest).outcome =
        .returned (some (.errorf "tls.client: Server's Finished failed to verify"))) ∧
    (∀ (ctx0 : cryptoContext) (rest : List handshakeMessage) (i : Nat) (x : Nat),
      i < (P.Update ctx0 []).clientFinished.verifyData.length →
      (P.Update ctx0 []).clientFinished.verifyData[i]? ≠ some x →
      P.WriteMessageBody (.finished (P.Update ctx0 []).serverFinished) = none →
      P.finishedUnmarshal (P.Update ctx0 []).clientFinished.verifyDataLen
        ((P.Update ctx0 []).clientFinished.verifyData.set i x) =
          .ok ((P.Update ctx0 []).clientFinished.verifyData.set i x) →
      (serverFinish P c ctx0
        (.raw handshakeTypeFinished ((P.Update ctx0 []).clientFinished.verifyData.set i x)
          :: rest)).outcome =
        .returned (some (.errorf "tls.client: Client's Finished failed to verify"))) := by
  have hset : ∀ (l : Bytes) (i x : Nat), i < l.length → l[i]? ≠ some x → l.set i x ≠ l := by
    intro l i x hi hx heq
    apply hx
    have := List.getElem?_set_self (l := l) (i := i) (a := x)
    rw [heq] at this
    simpa [hi] using this
  refine ⟨?_, ?_, ?_⟩
  · intro input r hr a b hm hab
    obtain ⟨s1, _, s3, _⟩ := driver_spec P c input r hr
    obtain ⟨e, he⟩ := s3 a b hm hab
    exact ⟨⟨e, he⟩, (s1 (by simp [he])).1⟩
  · intro ctx0 t rest i x hi hx hdec
    have hne := hset _ i x hi hx
    unfold clientFinish
    simp [handshakeMessage.body, hdec, hne]
  · intro ctx0 rest i x hi hx hw hdec
    have hne := hset _ i x hi hx
    unfold serverFinish ReadMessageBody_finished
    simp [handshakeMessage.body, handshakeMessage.msgType, hdec, hne, hw]

/-- C7: a run of `ClientHandshake` or of `ServerHandshake` that returns a non-nil error
(or that panics) leaves the `context` field of the connection as it was; the assignment
`c.context = ctx` is made only in a run that returns nil, as its last effect, right
after the rekeys of the inbound and of the outbound channel to application keys, which
both succeeded. -/
theorem C7_context_assigned_only_on_success (P : Env) (c : Conn)
    (input : List handshakeMessage) (r : Run)
    (hr : r = ClientHandshake P c input ∨ r = ServerHandshake P c input) :
    (∀ e, r.outcome = .returned (some e) → r.conn.context = c.context) ∧
    (r.outcome ≠ .returned none → r.conn = c ∧ ∀ ctx, Event.setContext ctx ∉ r.trace) ∧
    ((∀ ctx, Event.setContext ctx ∉ r.trace) → r.conn = c) ∧
    (∀ ctx, Event.setContext ctx ∈ r.trace →
      r.outcome = .returned none ∧ r.conn = { c with context := ctx } ∧
      P.Rekey .inbound ctx.suite ctx.applicationKeys.serverWriteKey
        ctx.applicationKeys.serverWriteIV = none ∧
      P.Rekey .outbound ctx.suite ctx.applicationKeys.serverWriteKey
        ctx.applicationKeys.serverWriteIV = none ∧
      ∃ evs, r.trace = evs ++ [applicationRekey .inbound ctx,
        applicationRekey .outbound ctx, .setContext ctx]) := by
  obtain ⟨s1, s2, _, s4⟩ := driver_spec P c input r hr
  refine ⟨fun e he => ?_, s1, s2, fun ctx hm => ?_⟩
  · rw [(s1 (by simp [he])).1]
  · obtain ⟨front, ch, sh, es, suite, tail, _, htr, ho, hc, mid, t, mid2, v, mid3, _, e2, e3,
      e4, e5, _, _, _, e6⟩ := s4 ctx hm
    refine ⟨by rw [ho, e2], by rw [hc, e3], e4, e5, ?_⟩
    refine ⟨front ++ [.init ch sh es es suite,
      handshakeRekey .inbound (P.Init cryptoContext.zero ch sh es es suite),
      handshakeRekey .outbound (P.Init cryptoContext.zero ch sh es es suite)] ++
      (mid ++ .update t :: mid2 ++ .bytesEqual v v :: mid3), ?_⟩
    rw [htr, e6]
    simp

/-- C9: every run of `ClientHandshake` or of `ServerHandshake` that attaches a context
`ctx` returns nil, and its trace is: effects that are not key-schedule steps;
`Init`; `in.Rekey` then `out.Rekey` with the suite and the handshake-phase server write
key and IV of the context `Init` left; then, with no `Rekey` in between, `Update`, the
comparison of the peer's verify-data, found equal; then `in.Rekey` then `out.Rekey`
with the suite and the application-phase server write key and IV of `ctx`; then the
assignment. The `Rekey` calls of the run are exactly these four, in this order. -/
theorem C9_rekey_sequence (P : Env) (c : Conn) (input : List handshakeMessage) (r : Run)
    (hr : r = ClientHandshake P c input ∨ r = ServerHandshake P c input)
    (ctx : cryptoContext) (hattach : Event.setContext ctx ∈ r.trace) :
    r.outcome = .returned none ∧
    ∃ (front : List Event) (ch : clientHelloBody) (sh : serverHelloBody) (es : Bytes)
      (suite : cipherSuite) (hctx : cryptoContext) (mid : List Event)
      (t : List handshakeMessageBody) (mid2 : List Event) (v : Bytes) (mid3 : List Event),
      hctx = P.Init cryptoContext.zero ch sh es es suite ∧ ctx = P.Update hctx t ∧
      r.trace = front ++ [.init ch sh es es suite, handshakeRekey .inbound hctx,
          handshakeRekey .outbound hctx] ++ mid ++ [.update t] ++ mid2 ++
          [.bytesEqual v v] ++ mid3 ++
          [applicationRekey .inbound ctx, applicationRekey .outbound ctx, .setContext ctx] ∧
      (∀ ev ∈ front, ev.isKeyStep = false) ∧ (∀ ev ∈ mid, ev.isKeyStep = false) ∧
      (∀ ev ∈ mid2, ev.isKeyStep = false) ∧ (∀ ev ∈ mid3, ev.isKeyStep = false) ∧
      rekeysOf r.trace =
        [.rekey .inbound hctx.suite hctx.handshakeKeys.serverWriteKey
           hctx.handshakeKeys.serverWriteIV,
         .rekey .outbound hctx.suite hctx.handshakeKeys.serverWriteKey
           hctx.handshakeKeys.serverWriteIV,
         .rekey .inbound ctx.suite ctx.applicationKeys.serverWriteKey
           ctx.applicationKeys.serverWriteIV,
         .rekey .outbound ctx.suite ctx.applicationKeys.serverWriteKey
           ctx.applicationKeys.serverWriteIV] := by
  obtain ⟨_, _, _, s4⟩ := driver_spec P c input r hr
  obtain ⟨front, ch, sh, es, suite, tail, hp, htr, ho, _, mid, t, mid2, v, mid3, e1, e2, _,
    _, _, p1, p2, p3, e6⟩ := s4 ctx hattach
  refine ⟨by rw [ho, e2], front, ch, sh, es, suite, _, mid, t, mid2, v, mid3, rfl, e1, ?_, hp, p1, p2, p3, ?_⟩
  · rw [htr, e6]; simp
  · rw [htr, e6]
    simp [rekeysOf_append, rekeysOf_plain _ hp, rekeysOf_plain _ p1, rekeysOf_plain _ p2,
      rekeysOf_plain _ p3, rekeysOf, handshakeRekey, applicationRekey]

theorem serverKeyShareLoop_none (P : Env) (shares : List keyShare)
    (h : shares.find? (fun s => mapGet config_supportedGroup s.group) = none) :
    serverKeyShareLoop P shares = ([], .ok (none, [])) := by
  induction shares with
  | nil => rfl
  | cons share shares ih =>
    simp only [List.find?_cons] at h
    split at h
    · simp at h
    · rename_i hs
      unfold serverKeyShareLoop
      simp [hs, ih h]

theorem serverKeyShareLoop_some (P : Env) (shares : List keyShare) (share : keyShare)
    (pub priv : Bytes)
    (h : shares.find? (fun s => mapGet config_supportedGroup s.group) = some share)
    (hgen : P.newKeyShare share.group = .ok (pub, priv)) :
    serverKeyShareLoop P shares =
      ([.newKeyShare share.group, .keyAgreement share.group share.keyExchange priv],
        .ok (some [⟨share.group, pub⟩],
          (P.keyAgreement share.group share.keyExchange priv).1)) := by
  induction shares with
  | nil => simp at h
  | cons s shares ih =>
    simp only [List.find?_cons] at h
    split at h
    · rename_i hs
      simp only [Option.some.injEq] at h
      subst h
      unfold serverKeyShareLoop
      simp [hs, hgen]
    · rename_i hs
      unfold serverKeyShareLoop
      simp [hs, ih h]

theorem serverFinish_writes (P : Env) (c : Conn) (ctx0 : cryptoContext)
    (rest : List handshakeMessage) (sh : serverHelloBody) :
    Event.write (.serverHello sh) ∉ (serverFinish P c ctx0 rest).trace := by
  rcases rest with _ | ⟨fm, rest⟩
  · unfold serverFinish ReadMessageBody_finished
    simp only []
    repeat' split
    all_goals ((try simp only [Prod.mk.injEq] at *); (try casesm* _ ∧ _); (try subst_vars); simp_all)
  · by_cases hty : fm.msgType = handshakeTypeFinished
    · unfold serverFinish ReadMessageBody_finished
      simp only [hty, if_true]
      repeat' split
      all_goals ((try simp only [Prod.mk.injEq] at *); (try casesm* _ ∧ _); (try subst_vars); simp_all)
    · unfold serverFinish ReadMessageBody_finished
      simp only [hty, if_false]
      repeat' split
      all_goals ((try simp only [Prod.mk.injEq] at *); (try casesm* _ ∧ _); (try subst_vars); simp_all)

/-- C6: the key-share step of `ServerHandshake`, on a ClientHello `ch` just read, is
find-first over the shares the client offers, in the client's order, for a group of
the server's supported-group set. If no offered share has a supported group, the
handshake returns a non-nil error and writes no message at all. If `share` is the
first offered share with a supported group, key generation for its group gives `pub`
and the agreed secret is not empty, then every ServerHello the run writes carries
exactly one key share, for the group of `share` with `pub`; and the run does write
that ServerHello, as its first message, when the four extensions are present and a
supported suite is offered. -/
theorem C6_key_share_is_first_supported (P : Env) (c : Conn) (ch : clientHelloBody)
    (rest : List handshakeMessage) :
    (((ch.extensions.FindKeyShare false).getD []).find?
        (fun s => mapGet config_supportedGroup s.group) = none →
      (∃ e, (ServerHandshake P c (.clientHello ch :: rest)).outcome = .returned (some e)) ∧
      ∀ body, Event.write body ∉ (ServerHandshake P c (.clientHello ch :: rest)).trace) ∧
    (∀ (share : keyShare) (pub priv : Bytes),
      ((ch.extensions.FindKeyShare false).getD []).find?
        (fun s => mapGet config_supportedGroup s.group) = some share →
      P.newKeyShare share.group = .ok (pub, priv) →
      (P.keyAgreement share.group share.keyExchange priv).1 ≠ [] →
      (∀ sh, Event.write (.serverHello sh) ∈
          (ServerHandshake P c (.clientHello ch :: rest)).trace →
        sh.extensions = [.keyShare true [⟨share.group, pub⟩]]) ∧
      ((ch.extensions.Find (.serverName "")).isSome = true →
        (ch.extensions.Find (.supportedGroups [])).isSome = true →
        (ch.extensions.Find (.signatureAlgorithms [])).isSome = true →
        (pickCipherSuite ch.cipherSuites).2 = true →
        (wireOf (ServerHandshake P c (.clientHello ch :: rest)).trace).head? =
          some (.serverHello ⟨(pickCipherSuite ch.cipherSuites).1,
            [.keyShare true [⟨share.group, pub⟩]]⟩))) := by
  refine ⟨fun hnone => ?_, fun share pub priv hsome hgen hES => ⟨fun sh hm => ?_, ?_⟩⟩
  · have hloop := serverKeyShareLoop_none P _ hnone
    unfold ServerHandshake
    simp only [ReadMessageBody_clientHello, hloop]
    split <;> simp
  · have hloop := serverKeyShareLoop_some P _ share pub priv hsome hgen
    revert hm
    unfold ServerHandshake
    simp only [ReadMessageBody_clientHello, hloop]
    have hsf := fun ctx0 rest => serverFinish_writes P c ctx0 rest sh
    repeat' split
    all_goals simp_all [extensionList.Add]
  · intro h1 h2 h3 h4
    have hloop := serverKeyShareLoop_some P _ share pub priv hsome hgen
    have h5 : (ch.extensions.FindKeyShare false).isSome = true := by
      cases hf : ch.extensions.FindKeyShare false with
      | none => rw [hf] at hsome; simp at hsome
      | some _ => rfl
    unfold ServerHandshake
    simp only [ReadMessageBody_clientHello, hloop, h1, h2, h3, h4, h5]
    simp [hES, wireOf, frame, extensionList.Add]


theorem clientFinish_unread (P : Env) (c : Conn) (ctx0 : cryptoContext)
    (t : List handshakeMessageBody) (fm : handshakeMessage) (rest : List handshakeMessage) :
    (clientFinish P c ctx0 t fm rest).unread = rest := by
  unfold clientFinish
  simp only []
  repeat' split
  all_goals simp_all

theorem clientFinish_updates (P : Env) (c : Conn) (ctx0 : cryptoContext)
    (t : List handshakeMessageBody) (fm : handshakeMessage) (rest : List handshakeMessage) :
    updatesOf (clientFinish P c ctx0 t fm rest).trace = [t] := by
  unfold clientFinish
  simp only []
  repeat' split
  all_goals simp_all [updatesOf]

theorem updatesOf_append (xs ys : List Event) :
    updatesOf (xs ++ ys) = updatesOf xs ++ updatesOf ys := by
  induction xs with
  | nil => rfl
  | cons x xs ih => cases x <;> simp [updatesOf, ih]

theorem updatesOf_plain (xs : List Event) (h : ∀ ev ∈ xs, ev.isKeyStep = false) :
    updatesOf xs = [] := by
  induction xs with
  | nil => rfl
  | cons x xs ih =>
    have hx := h x (by simp)
    have hxs := ih (fun ev hev => h ev (by simp [hev]))
    cases x <;> simp_all [updatesOf, Event.isKeyStep]

/-- The loop of the client on messages `ms`, none of type Finished, then `fm`, of type
Finished. -/
theorem clientReadToFinished_append (P : Env) (c : Conn) (ctx : cryptoContext)
    (fm : handshakeMessage) (rest : List handshakeMessage)
    (hfm : fm.msgType = handshakeTypeFinished)
    (ms : List handshakeMessage) (bodies : List handshakeMessageBody)
    (hb : List.Forall₂ (fun m b => m.toBody P = .ok b) ms bodies) :
    (∀ m ∈ ms, m.msgType ≠ handshakeTypeFinished) →
    ∀ transcript,
      clientReadToFinished P c ctx transcript (ms ++ fm :: rest) =
        Run.pre (ms.map Event.read ++ [.read fm])
          (clientFinish P c ctx (transcript ++ bodies) fm rest) := by
  induction hb with
  | nil =>
    intro _ transcript
    simp [clientReadToFinished, hfm]
  | @cons m b ms bodies hmb _ ih =>
    intro hms transcript
    have hm : m.msgType ≠ handshakeTypeFinished := hms m (by simp)
    have ih2 := ih (fun x hx => hms x (by simp [hx])) (transcript ++ [b])
    simp only [List.cons_append, clientReadToFinished, hm, if_false, hmb, List.append_eq]
    rw [ih2, pre_pre]
    simp

/-- C10: let `ClientHandshake` have generated its key shares, written its ClientHello,
read the ServerHello `sh`, agreed on the secret `ES` and rekeyed both channels to
handshake keys. If the messages that arrive next are `ms`, none of type Finished and
each with a body (`bodies`, in the same order), then `fm` of type Finished, then
`rest`: the driver reads `ms` and `fm`, in this order and nothing more, and then calls
`Update` with exactly `bodies`; `fm` is not in that argument, `rest` is left unread,
`Update` is called this once, and the rest of the run is the verification of `fm`: if
its body decodes to `vd`, then `vd` is the value compared with
`ctx.serverFinished.verifyData`. -/
theorem C10_update_gets_messages_before_finished (P : Env) (c : Conn)
    (sh : serverHelloBody) (ms : List handshakeMessage) (fm : handshakeMessage)
    (rest : List handshakeMessage) (bodies : List handshakeMessageBody)
    (evs : List Event) (shares : List keyShare) (privateKeys : List (namedGroup × Bytes))
    (sks : keyShare) (more : List keyShare) (ES : Bytes)
    (hgen : clientKeyShareLoop P config_keyShareGroups [] [] = (evs, .ok (shares, privateKeys)))
    (hwrite : P.WriteMessageBody (.clientHello (buildClientHello shares)) = none)
    (hfind : sh.extensions.FindKeyShare true = some (sks :: more))
    (hagree : P.keyAgreement sks.group sks.keyExchange
      ((privateKeys.lookup sks.group).getD []) = (ES, none))
    (hrk1 : P.Rekey .inbound
      (P.Init cryptoContext.zero (buildClientHello shares) sh ES ES sh.cipherSuite).suite
      (P.Init cryptoContext.zero (buildClientHello shares) sh ES ES
        sh.cipherSuite).handshakeKeys.serverWriteKey
      (P.Init cryptoContext.zero (buildClientHello shares) sh ES ES
        sh.cipherSuite).handshakeKeys.serverWriteIV = none)
    (hrk2 : P.Rekey .outbound
      (P.Init cryptoContext.zero (buildClientHello shares) sh ES ES sh.cipherSuite).suite
      (P.Init cryptoContext.zero (buildClientHello shares) sh ES ES
        sh.cipherSuite).handshakeKeys.serverWriteKey
      (P.Init cryptoContext.zero (buildClientHello shares) sh ES ES
        sh.cipherSuite).handshakeKeys.serverWriteIV = none)
    (hms : ∀ m ∈ ms, m.msgType ≠ handshakeTypeFinished)
    (hfm : fm.msgType = handshakeTypeFinished)
    (hbodies : List.Forall₂ (fun m b => m.toBody P = .ok b) ms bodies) :
    ∃ (front : List Event) (hctx : cryptoContext),
      hctx = P.Init cryptoContext.zero (buildClientHello shares) sh ES ES sh.cipherSuite ∧
      (∀ ev ∈ front, ev.isKeyStep = false) ∧
      ClientHandshake P c (.serverHello sh :: (ms ++ fm :: rest)) =
        Run.pre (front ++ [.init (buildClientHello shares) sh ES ES sh.cipherSuite,
            handshakeRekey .inbound hctx, handshakeRekey .outbound hctx] ++
            ms.map Event.read ++ [.read fm])
          (clientFinish P c hctx bodies fm rest) ∧
      (∃ tail, (clientFinish P c hctx bodies fm rest).trace = .update bodies :: tail) ∧
      updatesOf (ClientHandshake P c (.serverHello sh :: (ms ++ fm :: rest))).trace =
        [bodies] ∧
      (ClientHandshake P c (.serverHello sh :: (ms ++ fm :: rest))).unread = rest ∧
      (∀ vd, P.finishedUnmarshal (P.Update hctx bodies).serverFinished.verifyDataLen fm.body =
          .ok vd →
        Event.bytesEqual vd (P.Update hctx bodies).serverFinished.verifyData ∈
          (ClientHandshake P c (.serverHello sh :: (ms ++ fm :: rest))).trace) := by
  have hks := clientKeyShareLoop_plain P config_keyShareGroups [] []
  rw [hgen] at hks
  have hloop := clientReadToFinished_append P c
    (P.Init cryptoContext.zero (buildClientHello shares) sh ES ES sh.cipherSuite)
    fm rest hfm ms bodies hbodies hms []
  have hrun : ClientHandshake P c (.serverHello sh :: (ms ++ fm :: rest)) =
      Run.pre ((evs ++ [.write (.clientHello (buildClientHello shares)),
          .read (.serverHello sh),
          .keyAgreement sks.group sks.keyExchange ((privateKeys.lookup sks.group).getD [])]) ++
          [.init (buildClientHello shares) sh ES ES sh.cipherSuite,
            handshakeRekey .inbound
              (P.Init cryptoContext.zero (buildClientHello shares) sh ES ES sh.cipherSuite),
            handshakeRekey .outbound
              (P.Init cryptoContext.zero (buildClientHello shares) sh ES ES sh.cipherSuite)] ++
          ms.map Event.read ++ [.read fm])
        (clientFinish P c
          (P.Init cryptoContext.zero (buildClientHello shares) sh ES ES sh.cipherSuite)
          bodies fm rest) := by
    unfold ClientHandshake
    simp only [hgen, hwrite, ReadMessageBody_serverHello, hfind, hagree, hrk1, hrk2, hloop,
      pre_pre, List.nil_append, handshakeRekey]
    simp
  refine ⟨_, _, rfl, ?_, hrun, ?_, ?_, ?_, ?_⟩
  · intro ev hev
    rcases List.mem_append.1 hev with h | h
    · exact hks ev h
    · simp at h
      rcases h with h | h | h <;> subst h <;> rfl
  · unfold clientFinish
    exact ⟨_, rfl⟩
  · have hreads : updatesOf (ms.map Event.read) = [] :=
      updatesOf_plain _ (by
        intro ev hev
        obtain ⟨m, _, rfl⟩ := List.mem_map.1 hev
        rfl)
    rw [hrun, pre_trace, updatesOf_append, clientFinish_updates]
    simp only [updatesOf_append, updatesOf_plain _ hks, hreads]
    simp [updatesOf, handshakeRekey]
  · rw [hrun]
    simp [clientFinish_unread]
  · intro vd hvd
    rw [hrun]
    simp only [pre_trace, List.mem_append]
    right
    unfold clientFinish
    simp [hvd]


/-- The loop "Pick a ciphersuite" ends on the last supported suite of the list. -/
theorem pickCipherSuite_foldl (suites : List cipherSuite) (acc : cipherSuite × Bool) :
    suites.foldl
      (fun acc suite => if mapGet config_supportedCiphersuite suite then (suite, true) else acc)
      acc =
    match suites.reverse.find? (mapGet config_supportedCiphersuite) with
    | some suite => (suite, true)
    | none => acc := by
  induction suites generalizing acc with
  | nil => rfl
  | cons x xs ih =>
    rw [List.foldl_cons, ih, List.reverse_cons, List.find?_append]
    cases hxs : xs.reverse.find? (mapGet config_supportedCiphersuite) with
    | some s => simp
    | none =>
      by_cases hx : mapGet config_supportedCiphersuite x = true
      · simp [hx]
      · simp [hx]

theorem pickCipherSuite_last (suites : List cipherSuite) :
    pickCipherSuite suites =
      match suites.reverse.find? (mapGet config_supportedCiphersuite) with
      | some suite => (suite, true)
      | none => (0, false) :=
  pickCipherSuite_foldl suites (0, false)

theorem buildClientHello_find (shares : List keyShare) :
    ((buildClientHello shares).extensions.Find (.serverName "")).isSome = true ∧
    ((buildClientHello shares).extensions.Find (.supportedGroups [])).isSome = true ∧
    ((buildClientHello shares).extensions.Find (.signatureAlgorithms [])).isSome = true ∧
    (buildClientHello shares).extensions.FindKeyShare false = some shares :=
  ⟨rfl, rfl, rfl, rfl⟩

/-- The client of the exchange, up to its blocking on the first read. -/
theorem client_run_blocked (Pc : Env) (cc : Conn) (p1 k1 p2 k2 p3 k3 : Bytes)
    (hg1 : Pc.newKeyShare namedGroupP256 = .ok (p1, k1))
    (hg2 : Pc.newKeyShare namedGroupP384 = .ok (p2, k2))
    (hg3 : Pc.newKeyShare namedGroupP521 = .ok (p3, k3))
    (hwC : ∀ b, Pc.WriteMessageBody b = none) :
    wireOf (ClientHandshake Pc cc []).trace =
      [.clientHello (buildClientHello
        [⟨namedGroupP256, p1⟩, ⟨namedGroupP384, p2⟩, ⟨namedGroupP521, p3⟩])] := by
  simp [ClientHandshake, clientKeyShareLoop, config_keyShareGroups, hg1, hg2, hg3, hwC,
    ReadMessageBody_serverHello, wireOf, frame]

/-- C5: a client and a server joined by a lossless, in-order duplex channel. Assume
that key generation succeeds on both sides, that key agreement is symmetric (both
sides compute the same secret `ES`, not empty), that what is written is read back as
written (a hello by construction of the channel, the verify-data of a Finished by
hypothesis), that `Init` and `Update` are the same functions on both sides, and that
the channel neither fails a write nor a `Rekey`. Then the exchange settles after three
rounds, both drivers return nil having read all that was written, both call `Update`
once, with the same (empty) transcript, and both attach the same context, so the same
suite and the same application-phase keys. -/
theorem C5_duplex_handshake_completes (Pc Ps : Env) (cc sc : Conn)
    (p1 k1 p2 k2 p3 k3 sp sk ES : Bytes)
    (hg1 : Pc.newKeyShare namedGroupP256 = .ok (p1, k1))
    (hg2 : Pc.newKeyShare namedGroupP384 = .ok (p2, k2))
    (hg3 : Pc.newKeyShare namedGroupP521 = .ok (p3, k3))
    (hgs : Ps.newKeyShare namedGroupP384 = .ok (sp, sk))
    (hagS : Ps.keyAgreement namedGroupP384 p2 sk = (ES, none))
    (hagC : Pc.keyAgreement namedGroupP384 sp k2 = (ES, none))
    (hES : ES ≠ [])
    (hInit : Ps.Init = Pc.Init) (hUpdate : Ps.Update = Pc.Update)
    (hwC : ∀ b, Pc.WriteMessageBody b = none) (hwS : ∀ b, Ps.WriteMessageBody b = none)
    (hrC : ∀ ch s k iv, Pc.Rekey ch s k iv = none)
    (hrS : ∀ ch s k iv, Ps.Rekey ch s k iv = none)
    (hfC : ∀ ctx t, Pc.finishedUnmarshal (Pc.Update ctx t).serverFinished.verifyDataLen
      (Pc.Update ctx t).serverFinished.verifyData =
        .ok (Pc.Update ctx t).serverFinished.verifyData)
    (hfS : ∀ ctx t, Ps.finishedUnmarshal (Ps.Update ctx t).clientFinished.verifyDataLen
      (Ps.Update ctx t).clientFinished.verifyData =
        .ok (Ps.Update ctx t).clientFinished.verifyData) :
    ∃ (st : List handshakeMessage × List handshakeMessage) (ctx : cryptoContext),
      st = duplexRun Pc Ps cc sc 3 ∧ duplexStep Pc Ps cc sc st = st ∧
      (ClientHandshake Pc cc st.2).outcome = .returned none ∧
      (ServerHandshake Ps sc st.1).outcome = .returned none ∧
      (ClientHandshake Pc cc st.2).unread = [] ∧
      (ServerHandshake Ps sc st.1).unread = [] ∧
      updatesOf (ClientHandshake Pc cc st.2).trace = [[]] ∧
      updatesOf (ServerHandshake Ps sc st.1).trace = [[]] ∧
      Event.setContext ctx ∈ (ClientHandshake Pc cc st.2).trace ∧
      Event.setContext ctx ∈ (ServerHandshake Ps sc st.1).trace ∧
      (ClientHandshake Pc cc st.2).conn.context = ctx ∧
      (ServerHandshake Ps sc st.1).conn.context = ctx ∧
      (ClientHandshake Pc cc st.2).conn.context.suite =
        (ServerHandshake Ps sc st.1).conn.context.suite ∧
      (ClientHandshake Pc cc st.2).conn.context.applicationKeys =
        (ServerHandshake Ps sc st.1).conn.context.applicationKeys := by
  have hlk : ([(namedGroupP521, k3), (namedGroupP384, k2), (namedGroupP256, k1)].lookup
      namedGroupP384).getD [] = k2 := by
    simp [List.lookup, namedGroupP384, namedGroupP521]
  -- the messages of the exchange
  let ch := buildClientHello [⟨namedGroupP256, p1⟩, ⟨namedGroupP384, p2⟩, ⟨namedGroupP521, p3⟩]
  let sh : serverHelloBody :=
    ⟨TLS_ECDHE_RSA_WITH_AES_128_GCM_SHA256, [.keyShare true [⟨namedGroupP384, sp⟩]]⟩
  let ctx := Pc.Update (Pc.Init cryptoContext.zero ch sh ES ES
    TLS_ECDHE_RSA_WITH_AES_128_GCM_SHA256) []
  have hloopS : serverKeyShareLoop Ps [⟨namedGroupP256, p1⟩, ⟨namedGroupP384, p2⟩,
      ⟨namedGroupP521, p3⟩] =
      ([.newKeyShare namedGroupP384, .keyAgreement namedGroupP384 p2 sk],
        .ok (some [⟨namedGroupP384, sp⟩], ES)) := by
    have := serverKeyShareLoop_some Ps [⟨namedGroupP256, p1⟩, ⟨namedGroupP384, p2⟩,
      ⟨namedGroupP521, p3⟩] ⟨namedGroupP384, p2⟩ sp sk rfl hgs
    simpa [hagS] using this
  have hpick : pickCipherSuite ch.cipherSuites = (TLS_ECDHE_RSA_WITH_AES_128_GCM_SHA256, true) :=
    rfl
  have hshfind : sh.extensions.FindKeyShare true = some [⟨namedGroupP384, sp⟩] := rfl
  obtain ⟨hf1, hf2, hf3, hf4⟩ := buildClientHello_find
    [⟨namedGroupP256, p1⟩, ⟨namedGroupP384, p2⟩, ⟨namedGroupP521, p3⟩]
  -- the client, on what the server writes
  have hclient : ClientHandshake Pc cc
      [.serverHello sh, .raw handshakeTypeFinished ctx.serverFinished.verifyData] =
      { outcome := .returned none
        conn := { cc with context := ctx }
        trace := [.newKeyShare namedGroupP256, .newKeyShare namedGroupP384,
          .newKeyShare namedGroupP521, .write (.clientHello ch), .read (.serverHello sh),
          .keyAgreement namedGroupP384 sp k2,
          .init ch sh ES ES TLS_ECDHE_RSA_WITH_AES_128_GCM_SHA256,
          handshakeRekey .inbound (Pc.Init cryptoContext.zero ch sh ES ES
            TLS_ECDHE_RSA_WITH_AES_128_GCM_SHA256),
          handshakeRekey .outbound (Pc.Init cryptoContext.zero ch sh ES ES
            TLS_ECDHE_RSA_WITH_AES_128_GCM_SHA256),
          .read (.raw handshakeTypeFinished ctx.serverFinished.verifyData),
          .update [],
          .bytesEqual ctx.serverFinished.verifyData ctx.serverFinished.verifyData,
          .write (.finished ctx.clientFinished),
          applicationRekey .inbound ctx, applicationRekey .outbound ctx, .setContext ctx]
        unread := [] } := by
    simp [ClientHandshake, clientKeyShareLoop, config_keyShareGroups, hg1, hg2, hg3, hwC,
      ReadMessageBody_serverHello, hshfind, hlk, hagC, hrC, clientReadToFinished,
      handshakeMessage.msgType, clientFinish, handshakeMessage.body, hfC, Run.pre,
      handshakeRekey, applicationRekey, ch, sh, ctx]
  -- the server, on what the client writes
  have hserver : ServerHandshake Ps sc
      [.clientHello ch, .raw handshakeTypeFinished ctx.clientFinished.verifyData] =
      { outcome := .returned none
        conn := { sc with context := ctx }
        trace := [.read (.clientHello ch), .newKeyShare namedGroupP384,
          .keyAgreement namedGroupP384 p2 sk, .write (.serverHello sh),
          .init ch sh ES ES TLS_ECDHE_RSA_WITH_AES_128_GCM_SHA256,
          handshakeRekey .inbound (Pc.Init cryptoContext.zero ch sh ES ES
            TLS_ECDHE_RSA_WITH_AES_128_GCM_SHA256),
          handshakeRekey .outbound (Pc.Init cryptoContext.zero ch sh ES ES
            TLS_ECDHE_RSA_WITH_AES_128_GCM_SHA256),
          .update [], .write (.finished ctx.serverFinished),
          .read (.raw handshakeTypeFinished ctx.clientFinished.verifyData),
          .bytesEqual ctx.clientFinished.verifyData ctx.clientFinished.verifyData,
          applicationRekey .inbound ctx, applicationRekey .outbound ctx, .setContext ctx]
        unread := [] } := by
    have hfS2 := hfS (Pc.Init cryptoContext.zero ch sh ES ES
      TLS_ECDHE_RSA_WITH_AES_128_GCM_SHA256) []
    rw [hUpdate] at hfS2
    simp [ServerHandshake, ReadMessageBody_clientHello, hf1, hf2, hf3, hf4, hloopS, hpick,
      hES, hwS, hrS, hInit, hUpdate, serverFinish, ReadMessageBody_finished,
      handshakeMessage.msgType, handshakeMessage.body, Run.pre, handshakeRekey,
      applicationRekey, extensionList.Add, hfS2, ch, sh, ctx]
  -- the drivers while the peer has not answered yet
  have hc0 : wireOf (ClientHandshake Pc cc []).trace = [.clientHello ch] :=
    client_run_blocked Pc cc p1 k1 p2 k2 p3 k3 hg1 hg2 hg3 hwC
  have hs0 : wireOf (ServerHandshake Ps sc []).trace = [] := by
    simp [ServerHandshake, ReadMessageBody_clientHello, wireOf]
  have hs1 : wireOf (ServerHandshake Ps sc [.clientHello ch]).trace =
      [.serverHello sh, .raw handshakeTypeFinished ctx.serverFinished.verifyData] := by
    simp [ServerHandshake, ReadMessageBody_clientHello, hf1, hf2, hf3, hf4, hloopS, hpick,
      hES, hwS, hrS, hInit, hUpdate, serverFinish, ReadMessageBody_finished, Run.pre, wireOf,
      frame, extensionList.Add, ch, sh, ctx]
  have hc2 : wireOf (ClientHandshake Pc cc
      [.serverHello sh, .raw handshakeTypeFinished ctx.serverFinished.verifyData]).trace =
      [.clientHello ch, .raw handshakeTypeFinished ctx.clientFinished.verifyData] := by
    rw [hclient]
    simp [wireOf, frame, handshakeRekey, applicationRekey]
  have hs2 : wireOf (ServerHandshake Ps sc
      [.clientHello ch, .raw handshakeTypeFinished ctx.clientFinished.verifyData]).trace =
      [.serverHello sh, .raw handshakeTypeFinished ctx.serverFinished.verifyData] := by
    rw [hserver]
    simp [wireOf, frame, handshakeRekey, applicationRekey]
  have hrun : duplexRun Pc Ps cc sc 3 =
      ([.clientHello ch, .raw handshakeTypeFinished ctx.clientFinished.verifyData],
       [.serverHello sh, .raw handshakeTypeFinished ctx.serverFinished.verifyData]) := by
    simp only [duplexRun, duplexStep, hc0, hs0, hs1, hc2]
  refine ⟨_, ctx, rfl, ?_, ?_⟩
  · rw [hrun]
    simp only [duplexStep, hc2, hs2]
  · rw [hrun]
    simp only [hclient, hserver]
    simp [updatesOf, handshakeRekey, applicationRekey]

/-- Witness of C4: the toy client receives the server's Finished with its first byte
changed, and the toy server the client's; each compares unequal verify-data and
returns an error. -/
theorem C4_witness :
    (Event.bytesEqual (toyContext.serverFinished.verifyData.set 0 9)
        toyContext.serverFinished.verifyData ∈
      (ClientHandshake (toyEnv 3) Conn.fresh
        [.serverHello toyServerHello, tamperedServerFinished]).trace ∧
     ((∃ e, (ClientHandshake (toyEnv 3) Conn.fresh
        [.serverHello toyServerHello, tamperedServerFinished]).outcome = .returned (some e)) ∧
      (ClientHandshake (toyEnv 3) Conn.fresh
        [.serverHello toyServerHello, tamperedServerFinished]).conn = Conn.fresh)) ∧
    (clientFinish (toyEnv 3) Conn.fresh
        (toyInit cryptoContext.zero offeredHello toyServerHello [6] [6]
          TLS_ECDHE_RSA_WITH_AES_128_GCM_SHA256) [] tamperedServerFinished []).outcome =
      .returned (some (.errorf "tls.client: Server's Finished failed to verify")) ∧
    (serverFinish (toyEnv 6) Conn.fresh
        (toyInit cryptoContext.zero offeredHello toyServerHello [6] [6]
          TLS_ECDHE_RSA_WITH_AES_128_GCM_SHA256) [tamperedClientFinished]).outcome =
      .returned (some (.errorf "tls.client: Client's Finished failed to verify")) :=
  ⟨⟨by decide,
    (C4_finished_mismatch_is_an_error (toyEnv 3) Conn.fresh).1
      [.serverHello toyServerHello, tamperedServerFinished] _ (Or.inl rfl)
      (toyContext.serverFinished.verifyData.set 0 9) toyContext.serverFinished.verifyData
      (by decide) (by decide)⟩,
   (C4_finished_mismatch_is_an_error (toyEnv 3) Conn.fresh).2.1
      (toyInit cryptoContext.zero offeredHello toyServerHello [6] [6]
        TLS_ECDHE_RSA_WITH_AES_128_GCM_SHA256) [] [] 0 9 (by decide) (by decide) rfl,
   (C4_finished_mismatch_is_an_error (toyEnv 6) Conn.fresh).2.2
      (toyInit cryptoContext.zero offeredHello toyServerHello [6] [6]
        TLS_ECDHE_RSA_WITH_AES_128_GCM_SHA256) [] 0 9 (by decide) (by decide) rfl rfl⟩

/-- Witness of C7: the toy client, handed a Finished that does not verify, returns an
error and leaves the context of the connection as it was. -/
theorem C7_witness :
    (ClientHandshake (toyEnv 3) Conn.fresh
      [.serverHello toyServerHello, tamperedServerFinished]).outcome =
      .returned (some (.errorf "tls.client: Server's Finished failed to verify")) ∧
    (ClientHandshake (toyEnv 3) Conn.fresh
      [.serverHello toyServerHello, tamperedServerFinished]).conn.context =
      Conn.fresh.context :=
  ⟨rfl, (C7_context_assigned_only_on_success (toyEnv 3) Conn.fresh
    [.serverHello toyServerHello, tamperedServerFinished] _ (Or.inl rfl)).1 _ rfl⟩

/-- Witness of C9: the toy client, handed the toy server's ServerHello and Finished,
attaches `toyContext` and returns nil; it makes four `Rekey` calls. -/
theorem C9_witness :
    Event.setContext toyContext ∈
      (ClientHandshake (toyEnv 3) Conn.fresh
        [.serverHello toyServerHello, toyServerFinished]).trace ∧
    (ClientHandshake (toyEnv 3) Conn.fresh
      [.serverHello toyServerHello, toyServerFinished]).outcome = .returned none ∧
    (rekeysOf (ClientHandshake (toyEnv 3) Conn.fresh
      [.serverHello toyServerHello, toyServerFinished]).trace).length = 4 := by
  have h := C9_rekey_sequence (toyEnv 3) Conn.fresh
    [.serverHello toyServerHello, toyServerFinished] _ (Or.inl rfl) toyContext (by decide)
  obtain ⟨h1, _, _, _, _, _, _, _, _, _, _, _, _, _, _, _, _, _, _, h2⟩ := h
  exact ⟨by decide, h1, by rw [h2]; rfl⟩

/-- Witness of C6: offered P-256, P-384, P-521 with P-384 and P-521 supported, the toy
server answers with one key share, for P-384; offered P-256 only, it returns an error
and writes nothing. -/
theorem C6_witness :
    (wireOf (ServerHandshake (toyEnv 6) Conn.fresh [.clientHello offeredHello]).trace).head? =
      some (.serverHello ⟨TLS_ECDHE_RSA_WITH_AES_128_GCM_SHA256,
        [.keyShare true [⟨namedGroupP384, [16]⟩]]⟩) ∧
    ((∃ e, (ServerHandshake (toyEnv 6) Conn.fresh [.clientHello p256OnlyHello]).outcome =
        .returned (some e)) ∧
      ∀ body, Event.write body ∉
        (ServerHandshake (toyEnv 6) Conn.fresh [.clientHello p256OnlyHello]).trace) :=
  ⟨((C6_key_share_is_first_supported (toyEnv 6) Conn.fresh offeredHello []).2
      ⟨namedGroupP384, [20]⟩ [16] [30] rfl rfl (by decide)).2 rfl rfl rfl rfl,
   (C6_key_share_is_first_supported (toyEnv 6) Conn.fresh p256OnlyHello []).1 rfl⟩

/-- Witness of C10: after the ServerHello the toy client receives a Certificate
message, then the Finished, then one more message; `Update` gets the body of the
Certificate message alone, and the last message is left unread. -/
theorem C10_witness :
    updatesOf (ClientHandshake (toyEnv 3) Conn.fresh
      (.serverHello toyServerHello ::
        ([certificateMessage] ++ toyServerFinished :: [certificateMessage]))).trace =
      [[.other 11 [1, 2, 3]]] ∧
    (ClientHandshake (toyEnv 3) Conn.fresh
      (.serverHello toyServerHello ::
        ([certificateMessage] ++ toyServerFinished :: [certificateMessage]))).unread =
      [certificateMessage] := by
  obtain ⟨_, _, _, _, _, _, h1, h2, _⟩ :=
    C10_update_gets_messages_before_finished (toyEnv 3) Conn.fresh toyServerHello
      [certificateMessage] toyServerFinished [certificateMessage] [.other 11 [1, 2, 3]]
      [.newKeyShare namedGroupP256, .newKeyShare namedGroupP384, .newKeyShare namedGroupP521]
      [⟨namedGroupP256, [4]⟩, ⟨namedGroupP384, [20]⟩, ⟨namedGroupP521, [8]⟩]
      [(namedGroupP521, [28]), (namedGroupP384, [27]), (namedGroupP256, [26])]
      ⟨namedGroupP384, [16]⟩ [] [6] rfl rfl rfl rfl rfl rfl (by decide) rfl
      (List.Forall₂.cons rfl List.Forall₂.nil)
  exact ⟨h1, h2⟩

/-- Witness of C5: a toy client and a toy server, with different private exponents,
complete the exchange and end with the same context. -/
theorem C5_witness :
    (ClientHandshake (toyEnv 3) Conn.fresh
      (duplexRun (toyEnv 3) (toyEnv 6) Conn.fresh Conn.fresh 3).2).outcome = .returned none ∧
    (ServerHandshake (toyEnv 6) Conn.fresh
      (duplexRun (toyEnv 3) (toyEnv 6) Conn.fresh Conn.fresh 3).1).outcome = .returned none ∧
    (ClientHandshake (toyEnv 3) Conn.fresh
      (duplexRun (toyEnv 3) (toyEnv 6) Conn.fresh Conn.fresh 3).2).conn.context =
    (ServerHandshake (toyEnv 6) Conn.fresh
      (duplexRun (toyEnv 3) (toyEnv 6) Conn.fresh Conn.fresh 3).1).conn.context := by
  obtain ⟨st, ctx, hst, _, h1, h2, _, _, _, _, _, _, h3, h4, _⟩ :=
    C5_duplex_handshake_completes (toyEnv 3) (toyEnv 6) Conn.fresh Conn.fresh
      [4] [26] [20] [27] [8] [28] [16] [30] [6] rfl rfl rfl rfl rfl rfl (by decide) rfl rfl
      (fun _ => rfl) (fun _ => rfl) (fun _ _ _ _ => rfl) (fun _ _ _ _ => rfl)
      (fun _ t => by
        simp [toyEnv, toyUpdate, toyFinishedUnmarshal, verifyDataLen])
      (fun _ t => by
        simp [toyEnv, toyUpdate, toyFinishedUnmarshal, verifyDataLen])
  subst hst
  exact ⟨h1, h2, by rw [h3, h4]⟩

end Mint
